import Mathlib

/-!
Verification of the mathematical core of the scratch-pad assistant repository:
the expression sanitizer (`_parse_expression_safely`), the six symbolic
operations, and the `solve_math` router of `tools/math_tools.py` (class
`MathTools`), shallowly embedded in Lean.

Python dictionaries are modelled as insertion-ordered association lists of
`String × PyVal`; the external SymPy engine is modelled by a `SymEngine`
interface (parameterised over the expression carrier), with a concrete
executable instantiation `symEngine` faithful to SymPy on the polynomial
fragment exercised by the concrete theorems.
-/

mutual

/-- Model of a Python value as it occurs in the routed envelopes and in
JSON decoded routing decisions.  `float` carries the exact rational value
of the Python float.  Containers are a mutual family (rather than nested
`List`s) so that recursion over values stays structural and kernel
computable. -/
inductive PyVal where
  | none : PyVal
  | bool : Bool → PyVal
  | int : Int → PyVal
  | float : Rat → PyVal
  | str : String → PyVal
  | list : PyList → PyVal
  | dict : PyDict → PyVal

/-- A Python list of values. -/
inductive PyList where
  | nil : PyList
  | cons : PyVal → PyList → PyList

/-- A Python dict in insertion order (string keys, as produced by
`json.loads` and by the envelopes of this code base). -/
inductive PyDict where
  | nil : PyDict
  | cons : String → PyVal → PyDict → PyDict

end

instance : Inhabited PyVal := ⟨.none⟩

/-- Embed a Lean list of values. -/
def pyListOf : List PyVal → PyList
  | [] => .nil
  | v :: tl => .cons v (pyListOf tl)

/-- Length of a Python list. -/
def PyList.length : PyList → Nat
  | .nil => 0
  | .cons _ tl => 1 + tl.length

/-- Length of a Python dict. -/
def PyDict.length : PyDict → Nat
  | .nil => 0
  | .cons _ _ tl => 1 + tl.length

/-- `d.get(k, default)`: first matching key wins. -/
def PyDict.getD (d : PyDict) (k : String) (dflt : PyVal) : PyVal :=
  match d with
  | .nil => dflt
  | .cons k1 v tl => if k1 = k then v else tl.getD k dflt

/-- A result envelope: a Python dict in insertion order.  Envelopes are
built by the operations themselves, so the outer layer is kept as a Lean
association list for convenient reasoning. -/
abbrev Envelope := List (String × PyVal)

/-- Dict key lookup (`d.get(k)` / `d[k]`): first matching key. -/
def lookupField (env : Envelope) (k : String) : Option PyVal :=
  List.lookup k env

/-- Python truthiness (`bool(v)`). -/
def pyTruthy : PyVal → Bool
  | .none => false
  | .bool b => b
  | .int n => n != 0
  | .float q => q != 0
  | .str s => s != ""
  | .list .nil => false
  | .list _ => true
  | .dict .nil => false
  | .dict _ => true

/-- Python whitespace (`\s` for the ASCII range, and `str.strip`). -/
def pyIsSpace (c : Char) : Bool :=
  c = ' ' || c = '\t' || c = '\n' || c = '\r' || c = '\x0b' || c = '\x0c'

/-- The sanitizer allow-list `[a-zA-Z0-9+\-*/()^=\s\.,_]` of
`_parse_expression_safely` (tools/math_tools.py line 41). -/
def isAllowedChar (c : Char) : Bool :=
  c.isAlpha || c.isDigit ||
  ['+', '-', '*', '/', '(', ')', '^', '=', '.', ',', '_'].contains c ||
  pyIsSpace c

/-- `str.strip()` on the character list. -/
def stripList (l : List Char) : List Char :=
  ((l.dropWhile pyIsSpace).reverse.dropWhile pyIsSpace).reverse

/-- `str.strip()`. -/
def pyStrip (s : String) : String := ⟨stripList s.data⟩

/-- `re.sub(r'\^', '**', s)`: rewrite every caret to the `**` power operator. -/
def caretToPow (l : List Char) : List Char :=
  l.flatMap fun c => if c = '^' then ['*', '*'] else [c]

/-- `re.sub(r'(\d)([a-zA-Z])(?![a-zA-Z])', r'\1*\2', s)`: insert `*` between a
digit and a single letter that is not followed by another letter (`3x` → `3*x`
but `3sin` unchanged).  Mirrors the left-to-right non-overlapping scan of
`re.sub`: a match consumes the digit and the letter, the lookahead consumes
nothing. -/
def mulDigitLetter : List Char → List Char
  | c1 :: c2 :: rest =>
      if c1.isDigit && c2.isAlpha && (rest.head?.all fun c3 => !c3.isAlpha) then
        c1 :: '*' :: c2 :: mulDigitLetter rest
      else
        c1 :: mulDigitLetter (c2 :: rest)
  | l => l

/-- `re.sub(r'\)([a-zA-Z])(?![a-zA-Z])', r')*\1', s)`: `)x` → `)*x`. -/
def mulParenLetter : List Char → List Char
  | ')' :: c2 :: rest =>
      if c2.isAlpha && (rest.head?.all fun c3 => !c3.isAlpha) then
        ')' :: '*' :: c2 :: mulParenLetter rest
      else
        ')' :: mulParenLetter (c2 :: rest)
  | c :: rest => c :: mulParenLetter rest
  | [] => []

/-- `re.sub(r'(?<![a-zA-Z])([a-zA-Z])\(', r'\1*(', s)`: `x(` → `x*(` while
`sin(` is preserved.  The negative lookbehind inspects the character before
the current scan position (`prev`; `none` at the start of the string). -/
def mulLetterParen (prev : Option Char) : List Char → List Char
  | c1 :: '(' :: rest =>
      if c1.isAlpha && (prev.all fun p => !p.isAlpha) then
        c1 :: '*' :: '(' :: mulLetterParen (some '(') rest
      else
        c1 :: mulLetterParen (some c1) ('(' :: rest)
  | c :: rest => c :: mulLetterParen (some c) rest
  | [] => []

/-- The cleaning pipeline of `_parse_expression_safely` (after the allow-list
scan): strip, caret rewrite, then the three implicit-multiplication rewrites
in source order. -/
def cleanExpression (s : String) : String :=
  ⟨mulLetterParen Option.none
    (mulParenLetter (mulDigitLetter (caretToPow (stripList s.data))))⟩

/-- The ways `_parse_expression_safely` fails.  All are raised as `ValueError`
in the source and wrapped into the message
`"Invalid mathematical expression: <cause>"` by the handler at line 69. -/
inductive ParseError where
  | emptyExpr : ParseError
  | invalidChars : List Char → ParseError
  | sympyFailure : String → ParseError
deriving Repr, DecidableEq

/-- Python `repr` of a character set, rendered in first-occurrence order
(CPython's `set` iteration order is unspecified, so the model fixes a
canonical order). -/
def charSetRepr (cs : List Char) : String :=
  "\x7b" ++ String.intercalate ", " (cs.map fun c => "\x27" ++ c.toString ++ "\x27") ++ "\x7d"

/-- The message of the wrapped `ValueError` leaving `_parse_expression_safely`. -/
def ParseError.message : ParseError → String
  | .emptyExpr => "Invalid mathematical expression: Empty expression"
  | .invalidChars cs =>
      "Invalid mathematical expression: " ++ ("Invalid characters found: " ++ charSetRepr cs)
  | .sympyFailure m => "Invalid mathematical expression: " ++ m

/-- Interface of the external SymPy engine over an abstract expression
carrier `α`.  `parse` is `sympy.parse_expr` applied to the *cleaned* text;
`printExpr` is `str`; the computation fields return `Except` because the
corresponding SymPy calls may raise. -/
structure SymEngine (α : Type) where
  parse : String → Except String α
  printExpr : α → String
  sub : α → α → α
  solve : α → String → Except String (List α)
  simplify : α → Except String α
  diff : α → String → Int → Except String α
  integrate : α → String → Except String α
  integrateDef : α → String → PyVal → PyVal → Except String α
  factor : α → Except String α
  expand : α → α

/-- `MathTools._parse_expression_safely` (tools/math_tools.py lines 33-70):
reject empty input, scan the raw text against the allow-list and fail naming
the offending character set, then clean and hand the text to the engine's
parser; engine failures are wrapped. -/
def parseExpressionSafely {α : Type} (engine : SymEngine α) (expression : String) :
    Except ParseError α :=
  if expression = "" || pyStrip expression = "" then
    .error .emptyExpr
  else
    let invalid := expression.data.filter fun c => !(isAllowedChar c)
    if invalid.isEmpty then
      match engine.parse (cleanExpression expression) with
      | .ok e => .ok e
      | .error msg => .error (.sympyFailure msg)
    else
      .error (.invalidChars invalid.eraseDups)

example : pyStrip "  a b \t" = "a b" := by decide
example : pyTruthy (.list .nil) = false := by decide
example : isAllowedChar ';' = false := by decide
example : cleanExpression " 3x + y^2 - sin(x) + x(1) " = "3*x + y**2 - sin(x) + x*(1)" := by decide

/-- The text before the first `=` (`equation.split("=", 1)[0]`). -/
def splitEqLeft (s : String) : String :=
  ⟨s.data.takeWhile fun c => c != '='⟩

/-- The text after the first `=` (`equation.split("=", 1)[1]`). -/
def splitEqRight (s : String) : String :=
  ⟨(s.data.dropWhile fun c => c != '=').drop 1⟩

/-- `MathTools.solve_equation` (tools/math_tools.py lines 72-115): split on the
first `=` when present and solve `left - right = 0`, otherwise solve
`expression = 0`; every exception becomes an error envelope. -/
def solve_equation {α : Type} (engine : SymEngine α) (equation : String)
    (var : String := "x") : Envelope :=
  let exprE : Except String α :=
    if equation.data.elem '=' then
      match parseExpressionSafely engine (pyStrip (splitEqLeft equation)) with
      | .error e => .error e.message
      | .ok l =>
        match parseExpressionSafely engine (pyStrip (splitEqRight equation)) with
        | .error e => .error e.message
        | .ok r => .ok (engine.sub l r)
    else
      match parseExpressionSafely engine equation with
      | .error e => .error e.message
      | .ok e => .ok e
  match exprE with
  | .ok expr =>
    match engine.solve expr var with
    | .ok sols =>
      [("status", .str "success"),
       ("equation", .str equation),
       ("variable", .str var),
       ("solutions", .list (pyListOf (sols.map fun s => .str (engine.printExpr s)))),
       ("solution_count", .int sols.length),
       ("solution_type", .str "symbolic")]
    | .error e =>
      [("status", .str "error"),
       ("message", .str ("Error solving equation \x27" ++ (equation ++ ("\x27: " ++ e)))),
       ("equation", .str equation),
       ("variable", .str var)]
  | .error e =>
    [("status", .str "error"),
     ("message", .str ("Error solving equation \x27" ++ (equation ++ ("\x27: " ++ e)))),
     ("equation", .str equation),
     ("variable", .str var)]

/-- `MathTools.simplify_expression` (lines 117-143). -/
def simplify_expression {α : Type} (engine : SymEngine α) (expression : String) : Envelope :=
  let res : Except String (α × α) :=
    match parseExpressionSafely engine expression with
    | .error e => .error e.message
    | .ok expr =>
      match engine.simplify expr with
      | .error e => .error e
      | .ok s => .ok (expr, s)
  match res with
  | .ok (expr, simplified) =>
    [("status", .str "success"),
     ("original_expression", .str expression),
     ("simplified_expression", .str (engine.printExpr simplified)),
     ("is_simplified", .bool (engine.printExpr expr != engine.printExpr simplified))]
  | .error e =>
    [("status", .str "error"),
     ("message", .str ("Error simplifying expression \x27" ++ (expression ++ ("\x27: " ++ e)))),
     ("original_expression", .str expression)]

/-- `MathTools.calculate_derivative` (lines 145-180): the success envelope also
simplifies the derivative, so a simplification failure turns into the error
envelope as well. -/
def calculate_derivative {α : Type} (engine : SymEngine α) (expression : String)
    (var : String := "x") (order : Int := 1) : Envelope :=
  let res : Except String (α × α) :=
    match parseExpressionSafely engine expression with
    | .error e => .error e.message
    | .ok expr =>
      match engine.diff expr var order with
      | .error e => .error e
      | .ok d =>
        match engine.simplify d with
        | .error e => .error e
        | .ok sd => .ok (d, sd)
  match res with
  | .ok (derivative, simplified) =>
    [("status", .str "success"),
     ("original_expression", .str expression),
     ("variable", .str var),
     ("order", .int order),
     ("derivative", .str (engine.printExpr derivative)),
     ("simplified_derivative", .str (engine.printExpr simplified))]
  | .error e =>
    [("status", .str "error"),
     ("message", .str ("Error calculating derivative of \x27" ++ (expression ++ ("\x27: " ++ e)))),
     ("original_expression", .str expression),
     ("variable", .str var),
     ("order", .int order)]

/-- The `limits` argument of `calculate_integral` as a Python value. -/
def limitsVal : Option (List PyVal) → PyVal
  | Option.none => .none
  | some l => .list (pyListOf l)

/-- `MathTools.calculate_integral` (lines 182-228): `if limits:` is Python
truthiness, so `None` and `[]` both take the indefinite branch; a non-empty
list whose length is not 2 raises `"Limits must be a list of exactly 2
values [lower, upper]"`, caught by the operation's own handler. -/
def calculate_integral {α : Type} (engine : SymEngine α) (expression : String)
    (var : String := "x") (limits : Option (List PyVal) := Option.none) : Envelope :=
  let res : Except String (α × α × String) :=
    match parseExpressionSafely engine expression with
    | .error e => .error e.message
    | .ok expr =>
      let integralE : Except String (α × String) :=
        match limits with
        | some l =>
          if !l.isEmpty then
            if l.length != 2 then
              .error "Limits must be a list of exactly 2 values [lower, upper]"
            else
              match l with
              | [lower, upper] =>
                match engine.integrateDef expr var lower upper with
                | .error e => .error e
                | .ok i => .ok (i, "definite")
              | _ => .error "Limits must be a list of exactly 2 values [lower, upper]"
          else
            match engine.integrate expr var with
            | .error e => .error e
            | .ok i => .ok (i, "indefinite")
        | Option.none =>
          match engine.integrate expr var with
          | .error e => .error e
          | .ok i => .ok (i, "indefinite")
      match integralE with
      | .error e => .error e
      | .ok (i, ty) =>
        match engine.simplify i with
        | .error e => .error e
        | .ok si => .ok (i, si, ty)
  match res with
  | .ok (integral, simplified, integralType) =>
    [("status", .str "success"),
     ("original_expression", .str expression),
     ("variable", .str var),
     ("limits", limitsVal limits),
     ("integral_type", .str integralType),
     ("integral", .str (engine.printExpr integral)),
     ("simplified_integral", .str (engine.printExpr simplified))]
  | .error e =>
    [("status", .str "error"),
     ("message", .str ("Error calculating integral of \x27" ++ (expression ++ ("\x27: " ++ e)))),
     ("original_expression", .str expression),
     ("variable", .str var),
     ("limits", limitsVal limits)]

/-!
Kernel-computable rational arithmetic.  The `Rat` operations of the standard
library are `@[irreducible]`, so concrete theorems about the executable model
could not be checked by `rfl`/`decide` through them; the following wrappers
go through `mkRat`, which the kernel evaluates.
-/

/-- Kernel-computable addition on `Rat`. -/
def rAdd (a b : Rat) : Rat := mkRat (a.num * b.den + b.num * a.den) (a.den * b.den)

/-- Kernel-computable negation on `Rat`. -/
def rNeg (a : Rat) : Rat := mkRat (-a.num) a.den

/-- Kernel-computable subtraction on `Rat`. -/
def rSub (a b : Rat) : Rat := rAdd a (rNeg b)

/-- Kernel-computable multiplication on `Rat`. -/
def rMul (a b : Rat) : Rat := mkRat (a.num * b.num) (a.den * b.den)

/-- Kernel-computable inverse on `Rat` (`rInv 0 = 0`). -/
def rInv (a : Rat) : Rat := mkRat (a.num.sign * a.den) a.num.natAbs

/-- Kernel-computable division on `Rat`. -/
def rDiv (a b : Rat) : Rat := rMul a (rInv b)

/-- Kernel-computable natural power on `Rat`. -/
def rPowNat (a : Rat) : Nat → Rat
  | 0 => 1
  | n + 1 => rMul a (rPowNat a n)

/-- Kernel-computable integer power on `Rat` (negative exponents invert). -/
def rPowInt (a : Rat) (z : Int) : Rat :=
  if 0 ≤ z then rPowNat a z.toNat else rInv (rPowNat a (-z).toNat)

example : rDiv 1 3 = mkRat 1 3 := rfl
example : rAdd (mkRat 1 3) (mkRat 1 6) = mkRat 1 2 := rfl
example : rPowInt 2 (-2) = mkRat 1 4 := rfl

/-- `MathTools.factor_expression` (lines 230-256). -/
def factor_expression {α : Type} (engine : SymEngine α) (expression : String) : Envelope :=
  let res : Except String (α × α) :=
    match parseExpressionSafely engine expression with
    | .error e => .error e.message
    | .ok expr =>
      match engine.factor expr with
      | .error e => .error e
      | .ok f => .ok (expr, f)
  match res with
  | .ok (expr, factored) =>
    [("status", .str "success"),
     ("original_expression", .str expression),
     ("factored_expression", .str (engine.printExpr factored)),
     ("is_factored", .bool (engine.printExpr expr != engine.printExpr factored))]
  | .error e =>
    [("status", .str "error"),
     ("message", .str ("Error factoring expression \x27" ++ (expression ++ ("\x27: " ++ e)))),
     ("original_expression", .str expression)]

/-- Tokens of the mathematical expression grammar accepted by the SymPy
parser model.  `num` records whether the literal contained a decimal point
(SymPy turns such literals into `Float`). -/
inductive Tok where
  | num (isFloat : Bool) (q : Rat)
  | ident (s : String)
  | plus | minus | star | slash | dstar | lparen | rparen
deriving Repr, DecidableEq

/-- Decimal digits to a natural number. -/
def digitsToNat (l : List Char) : Nat :=
  l.foldl (fun a c => 10 * a + (c.toNat - '0'.toNat)) 0

/-- Tokenizer for the expression grammar (fuelled; the fuel is at least the
number of remaining characters, and every step consumes at least one). -/
def tokenizeAux : Nat → List Char → Except String (List Tok)
  | 0, _ => .error "tokenizer fuel exhausted"
  | _, [] => .ok []
  | fuel + 1, c :: rest =>
    if pyIsSpace c then
      tokenizeAux fuel rest
    else if c.isDigit then
      let intDigits := (c :: rest).takeWhile Char.isDigit
      let rest1 := (c :: rest).dropWhile Char.isDigit
      match rest1 with
      | '.' :: rest2 =>
        let fracDigits := rest2.takeWhile Char.isDigit
        let rest3 := rest2.dropWhile Char.isDigit
        let v : Rat :=
          rAdd (digitsToNat intDigits : Rat)
            (rDiv (digitsToNat fracDigits : Rat) (rPowNat 10 fracDigits.length))
        (tokenizeAux fuel rest3).map (Tok.num true v :: ·)
      | _ => (tokenizeAux fuel rest1).map (Tok.num false (digitsToNat intDigits) :: ·)
    else if c.isAlpha || c = '_' then
      let identChars := (c :: rest).takeWhile fun d => d.isAlpha || d.isDigit || d = '_'
      let rest1 := (c :: rest).dropWhile fun d => d.isAlpha || d.isDigit || d = '_'
      (tokenizeAux fuel rest1).map (Tok.ident ⟨identChars⟩ :: ·)
    else if c = '+' then (tokenizeAux fuel rest).map (Tok.plus :: ·)
    else if c = '-' then (tokenizeAux fuel rest).map (Tok.minus :: ·)
    else if c = '*' then
      match rest with
      | '*' :: rest2 => (tokenizeAux fuel rest2).map (Tok.dstar :: ·)
      | _ => (tokenizeAux fuel rest).map (Tok.star :: ·)
    else if c = '/' then (tokenizeAux fuel rest).map (Tok.slash :: ·)
    else if c = '(' then (tokenizeAux fuel rest).map (Tok.lparen :: ·)
    else if c = ')' then (tokenizeAux fuel rest).map (Tok.rparen :: ·)
    else .error ("unexpected character \x27" ++ c.toString ++ "\x27")

/-- Tokenize a string. -/
def tokenize (s : String) : Except String (List Tok) :=
  tokenizeAux (s.data.length + 1) s.data

/-- Value algebra for the expression grammar: instantiated once with symbolic
expressions (model of `sympy.parse_expr`) and once with numbers with float
contagion (model of `sympy.sympify` on the purely numeric fragment). -/
structure ExprAlg (β : Type) where
  ofNum : Bool → Rat → β
  ofIdent : String → Except String β
  addV : β → β → β
  subV : β → β → β
  mulV : β → β → β
  divV : β → β → Except String β
  powV : β → β → Except String β
  negV : β → β

mutual

/-- `expr := term (('+' | '-') term)*` -/
def parseE {β : Type} (alg : ExprAlg β) : Nat → List Tok → Except String (β × List Tok)
  | 0, _ => .error "parser fuel exhausted"
  | fuel + 1, toks => do
    let (a, rest) ← parseT alg fuel toks
    parseESuffix alg fuel a rest

def parseESuffix {β : Type} (alg : ExprAlg β) : Nat → β → List Tok → Except String (β × List Tok)
  | 0, _, _ => .error "parser fuel exhausted"
  | fuel + 1, a, Tok.plus :: rest => do
    let (b, rest2) ← parseT alg fuel rest
    parseESuffix alg fuel (alg.addV a b) rest2
  | fuel + 1, a, Tok.minus :: rest => do
    let (b, rest2) ← parseT alg fuel rest
    parseESuffix alg fuel (alg.subV a b) rest2
  | _ + 1, a, rest => .ok (a, rest)

/-- `term := unary (('*' | '/') unary)*` -/
def parseT {β : Type} (alg : ExprAlg β) : Nat → List Tok → Except String (β × List Tok)
  | 0, _ => .error "parser fuel exhausted"
  | fuel + 1, toks => do
    let (a, rest) ← parseU alg fuel toks
    parseTSuffix alg fuel a rest

def parseTSuffix {β : Type} (alg : ExprAlg β) : Nat → β → List Tok → Except String (β × List Tok)
  | 0, _, _ => .error "parser fuel exhausted"
  | fuel + 1, a, Tok.star :: rest => do
    let (b, rest2) ← parseU alg fuel rest
    parseTSuffix alg fuel (alg.mulV a b) rest2
  | fuel + 1, a, Tok.slash :: rest => do
    let (b, rest2) ← parseU alg fuel rest
    let d ← alg.divV a b
    parseTSuffix alg fuel d rest2
  | _ + 1, a, rest => .ok (a, rest)

/-- `unary := ('+' | '-')* power` -/
def parseU {β : Type} (alg : ExprAlg β) : Nat → List Tok → Except String (β × List Tok)
  | 0, _ => .error "parser fuel exhausted"
  | fuel + 1, Tok.minus :: rest => do
    let (a, rest2) ← parseU alg fuel rest
    .ok (alg.negV a, rest2)
  | fuel + 1, Tok.plus :: rest => parseU alg fuel rest
  | fuel + 1, toks => parseP alg fuel toks

/-- `power := atom ('**' unary)?` (right-binding exponent). -/
def parseP {β : Type} (alg : ExprAlg β) : Nat → List Tok → Except String (β × List Tok)
  | 0, _ => .error "parser fuel exhausted"
  | fuel + 1, toks => do
    let (a, rest) ← parseAtom alg fuel toks
    match rest with
    | Tok.dstar :: rest2 => do
      let (b, rest3) ← parseU alg fuel rest2
      let p ← alg.powV a b
      .ok (p, rest3)
    | _ => .ok (a, rest)

/-- `atom := number | identifier | '(' expr ')'` -/
def parseAtom {β : Type} (alg : ExprAlg β) : Nat → List Tok → Except String (β × List Tok)
  | 0, _ => .error "parser fuel exhausted"
  | _ + 1, Tok.num f q :: rest => .ok (alg.ofNum f q, rest)
  | _ + 1, Tok.ident s :: rest => do
    let v ← alg.ofIdent s
    .ok (v, rest)
  | fuel + 1, Tok.lparen :: rest => do
    let (a, rest2) ← parseE alg fuel rest
    match rest2 with
    | Tok.rparen :: rest3 => .ok (a, rest3)
    | _ => .error "expected closing parenthesis"
  | _ + 1, _ => .error "unexpected token"

end

/-- Run the grammar on a whole string; trailing tokens are a parse error. -/
def runParse {β : Type} (alg : ExprAlg β) (s : String) : Except String β := do
  let ts ← tokenize s
  let (v, rest) ← parseE alg (5 * ts.length + 10) ts
  if rest.isEmpty then .ok v else .error "unexpected trailing tokens"

/-- Model of a SymPy expression tree on the fragment the development
exercises: rationals, symbols, sums, products and powers. -/
inductive SymExpr where
  | num (q : Rat)
  | sym (name : String)
  | add (a b : SymExpr)
  | mul (a b : SymExpr)
  | pow (a b : SymExpr)
deriving Repr, DecidableEq, Inhabited

/-- SymPy auto-evaluated addition: constants fold, zero vanishes. -/
def sAdd : SymExpr → SymExpr → SymExpr
  | .num a, .num b => .num (rAdd a b)
  | .num a, e => if a = 0 then e else .add (.num a) e
  | e, .num b => if b = 0 then e else .add e (.num b)
  | a, b => .add a b

/-- SymPy auto-evaluated multiplication: constants fold, `0` and `1`
absorb, the numeric coefficient moves to the front. -/
def sMul : SymExpr → SymExpr → SymExpr
  | .num a, .num b => .num (rMul a b)
  | .num a, e => if a = 0 then .num 0 else if a = 1 then e else .mul (.num a) e
  | e, .num b => if b = 0 then .num 0 else if b = 1 then e else .mul (.num b) e
  | a, b => .mul a b

/-- SymPy auto-evaluated power: integer powers of rationals fold, `**1` and
`**0` evaluate. -/
def sPow : SymExpr → SymExpr → SymExpr
  | .num a, .num b =>
    if b.den = 1 then
      if 0 ≤ b.num then .num (rPowNat a b.num.toNat)
      else if a ≠ 0 then .num (rPowInt a b.num) else .pow (.num a) (.num b)
    else .pow (.num a) (.num b)
  | e, .num b => if b = 1 then e else if b = 0 then .num 1 else .pow e (.num b)
  | a, b => .pow a b

/-- Negation as multiplication by `-1`, as SymPy represents it. -/
def sNeg (e : SymExpr) : SymExpr := sMul (.num (-1)) e

/-- Subtraction `a - b = a + (-1)*b`, as SymPy represents it. -/
def sSub (a b : SymExpr) : SymExpr := sAdd a (sNeg b)

/-- Division `a / b = a * b**(-1)`; a zero numeric divisor is modelled as a
failure (SymPy produces `zoo`, which no operation of this development
exercises). -/
def sDiv (a b : SymExpr) : Except String SymExpr :=
  match b with
  | .num q => if q = 0 then .error "division by zero" else .ok (sMul a (.num (rInv q)))
  | b => .ok (sMul a (sPow b (.num (-1))))

/-- The symbolic value algebra: model of `sympy.parse_expr` with full
evaluation.  Decimal literals are modelled by their exact rational value. -/
def symAlg : ExprAlg SymExpr where
  ofNum _ q := .num q
  ofIdent s := .ok (.sym s)
  addV := sAdd
  subV := sSub
  mulV := sMul
  divV := sDiv
  powV a b := .ok (sPow a b)
  negV := sNeg

/-- Model of `sympy.parse_expr` on cleaned expression text. -/
def parseSymExpr (s : String) : Except String SymExpr := runParse symAlg s

/-- A SymPy number: `exact` covers `Integer`/`Rational`, `approx` covers
`Float` (carrying the exact rational value of the literal). -/
inductive SymNum where
  | exact (q : Rat)
  | approx (q : Rat)
deriving Repr, DecidableEq

/-- The rational value of a SymPy number. -/
def SymNum.val : SymNum → Rat
  | .exact q => q
  | .approx q => q

/-- Float contagion: a binary operation returns `Float` when either operand
is a `Float`. -/
def numLift (f : Rat → Rat → Rat) : SymNum → SymNum → SymNum
  | .exact a, .exact b => .exact (f a b)
  | a, b => .approx (f a.val b.val)

/-- Numeric power; fractional exponents (which SymPy keeps symbolic, e.g.
`sqrt(2)`) and `0 ** negative` are outside the numeric model. -/
def numPow (a b : SymNum) : Except String SymNum :=
  let q := b.val
  if q.den = 1 then
    if 0 ≤ q.num then .ok (numLift (fun x _ => rPowNat x q.num.toNat) a b)
    else if a.val ≠ 0 then .ok (numLift (fun x _ => rPowInt x q.num) a b)
    else .error "zero raised to a negative power"
  else .error "fractional exponents are not numeric in this model"

/-- The numeric value algebra: model of `sympy.sympify` on the purely
numeric text that survives the arithmetic cleaning. -/
def numAlg : ExprAlg SymNum where
  ofNum isFloat q := if isFloat then .approx q else .exact q
  ofIdent _ := .error "not a numeric expression"
  addV := numLift rAdd
  subV := numLift rSub
  mulV := numLift rMul
  divV a b := if b.val = 0 then .error "division by zero" else .ok (numLift rDiv a b)
  powV := numPow
  negV a := numLift (fun x _ => rNeg x) a a

/-- Model of `sympy.sympify` on arithmetic text. -/
def sympifyNum (s : String) : Except String SymNum := runParse numAlg s

example : parseSymExpr "x**2" = .ok (.pow (.sym "x") (.num 2)) := rfl
example : sympifyNum "12345*67890" = .ok (.exact 838102050) := rfl
example : sympifyNum "222222+555555*10000" = .ok (.exact 5555772222) := rfl

/-!
Dense univariate polynomials (`index i` = coefficient of `var ^ i`) back the
concrete engine's computation operations.
-/

/-- Coefficient-wise polynomial addition. -/
def polyAdd : List Rat → List Rat → List Rat
  | [], q => q
  | p, [] => p
  | a :: p, b :: q => rAdd a b :: polyAdd p q

/-- Polynomial multiplication (convolution). -/
def polyMul : List Rat → List Rat → List Rat
  | [], _ => []
  | a :: p, q => polyAdd (q.map (rMul a)) (0 :: polyMul p q)

/-- Polynomial natural power. -/
def polyPow (p : List Rat) : Nat → List Rat
  | 0 => [1]
  | n + 1 => polyMul p (polyPow p n)

/-- Drop trailing zero coefficients. -/
def polyTrim (p : List Rat) : List Rat :=
  (p.reverse.dropWhile fun c => decide (c = 0)).reverse

/-- Differentiate once. -/
def polyDiffAux : Nat → List Rat → List Rat
  | _, [] => []
  | i, c :: rest => rMul c (i : Rat) :: polyDiffAux (i + 1) rest

/-- Derivative of a polynomial. -/
def polyDiff (p : List Rat) : List Rat :=
  polyDiffAux 1 (p.drop 1)

/-- Antiderivative helper. -/
def polyIntegrateAux : Nat → List Rat → List Rat
  | _, [] => []
  | i, c :: rest => rDiv c ((i + 1 : Nat) : Rat) :: polyIntegrateAux (i + 1) rest

/-- Antiderivative with zero constant term. -/
def polyIntegrate (p : List Rat) : List Rat :=
  0 :: polyIntegrateAux 0 p

/-- Horner evaluation. -/
def polyEval (p : List Rat) (x : Rat) : Rat :=
  p.foldr (fun c acc => rAdd c (rMul x acc)) 0

/-- Convert a `SymExpr` into a dense polynomial in `v`; fails on expressions
that are not polynomials in that single variable (the fragment boundary of
the concrete engine model). -/
def toPoly (v : String) : SymExpr → Except String (List Rat)
  | .num q => .ok [q]
  | .sym s => if s = v then .ok [0, 1] else .error "not a univariate polynomial in the variable"
  | .add a b => do
    let p ← toPoly v a
    let q ← toPoly v b
    .ok (polyAdd p q)
  | .mul a b => do
    let p ← toPoly v a
    let q ← toPoly v b
    .ok (polyMul p q)
  | .pow a b =>
    match b with
    | .num k =>
      if k.den = 1 && 0 ≤ k.num then do
        let p ← toPoly v a
        .ok (polyPow p k.num.toNat)
      else .error "not a polynomial power"
    | _ => .error "not a polynomial power"

/-- One canonical monomial `c * v ^ i` (raw constructors, printed in SymPy
order with the numeric coefficient in front). -/
def monomial (v : String) (c : Rat) (i : Nat) : SymExpr :=
  if i = 0 then .num c
  else
    let base : SymExpr := if i = 1 then .sym v else .pow (.sym v) (.num (i : Rat))
    if c = 1 then base else .mul (.num c) base

/-- Rebuild a canonical expression from a trimmed dense polynomial, terms in
descending exponent order as SymPy prints them. -/
def fromPolyAux (v : String) : List (Rat × Nat) → Option SymExpr
  | [] => Option.none
  | (c, i) :: rest =>
    let t := monomial v c i
    match fromPolyAux v rest with
    | Option.none => some t
    | some e => some (.add e t)

/-- Indexed coefficients, low degree first. -/
def polyTerms : Nat → List Rat → List (Rat × Nat)
  | _, [] => []
  | i, c :: rest => (c, i) :: polyTerms (i + 1) rest

/-- Canonical expression of a polynomial (`num 0` for the zero polynomial).
Terms with zero coefficient vanish. -/
def fromPoly (v : String) (p : List Rat) : SymExpr :=
  match fromPolyAux v ((polyTerms 0 (polyTrim p)).filter fun t => decide (t.1 ≠ 0)) with
  | Option.none => .num 0
  | some e => e

/-- SymPy's `str` on an `Integer`/`Rational`. -/
def ratNumStr (q : Rat) : String :=
  if q.den = 1 then toString q.num else toString q.num ++ "/" ++ toString q.den

/-- SymPy's `str` printer on the modelled fragment.  Sums appearing as
multiplicands and composite bases/exponents of powers are parenthesised; a
numeric coefficient of a product is printed in front, with a rational
coefficient's denominator rendered as a trailing division as SymPy does
(`x**3/3`, `2*x/3`). -/
def printSymExpr : SymExpr → String
  | .num q => ratNumStr q
  | .sym s => s
  | .add a b => printSymExpr a ++ " + " ++ printSymExpr b
  | .mul a b =>
    let bF : String :=
      match b with
      | .add _ _ => "(" ++ printSymExpr b ++ ")"
      | _ => printSymExpr b
    (match a with
     | .num q =>
       if q.den = 1 then
         if q.num = -1 then "-" ++ bF
         else toString q.num ++ "*" ++ bF
       else if q.num = 1 then bF ++ "/" ++ toString q.den
       else if q.num = -1 then "-" ++ bF ++ "/" ++ toString q.den
       else toString q.num ++ "*" ++ bF ++ "/" ++ toString q.den
     | _ =>
       (match a with
        | .add _ _ => "(" ++ printSymExpr a ++ ")"
        | _ => printSymExpr a) ++ "*" ++ bF)
  | .pow a b =>
    let pa : String :=
      match a with
      | .sym s => s
      | .num q => if q.den = 1 && decide (0 ≤ q.num) then toString q.num else "(" ++ ratNumStr q ++ ")"
      | _ => "(" ++ printSymExpr a ++ ")"
    let pb : String :=
      match b with
      | .sym s => s
      | .num q => if q.den = 1 && decide (0 ≤ q.num) then toString q.num else "(" ++ ratNumStr q ++ ")"
      | _ => "(" ++ printSymExpr b ++ ")"
    pa ++ "**" ++ pb

example : printSymExpr (fromPoly "x" (polyIntegrate [0, 0, 1])) = "x**3/3" := rfl
example : printSymExpr (.add (.pow (.sym "x") (.num 2)) (.num 1)) = "x**2 + 1" := rfl

/-- The distinct free symbols of an expression. -/
def freeSyms : SymExpr → List String
  | .num _ => []
  | .sym s => [s]
  | .add a b => freeSyms a ++ freeSyms b
  | .mul a b => freeSyms a ++ freeSyms b
  | .pow a b => freeSyms a ++ freeSyms b

/-- Model of `sympy.simplify` on the fragment: polynomial normalisation for
expressions in at most one variable, identity elsewhere.  Total because
`sympy.simplify` does not raise on this fragment. -/
def symSimplify (e : SymExpr) : SymExpr :=
  match (freeSyms e).eraseDups with
  | [] =>
    (match toPoly "x" e with
     | .ok p => fromPoly "x" p
     | .error _ => e)
  | [v] =>
    (match toPoly v e with
     | .ok p => fromPoly v p
     | .error _ => e)
  | _ => e

/-- Model of `sympy.solve` on the fragment: roots of constant and linear
polynomials (SymPy handles more; nothing in this development needs it). -/
def symSolve (e : SymExpr) (v : String) : Except String (List SymExpr) :=
  match toPoly v e with
  | .error _ => .error "solve: unsupported expression"
  | .ok p =>
    match polyTrim p with
    | [] => .ok []
    | [_] => .ok []
    | [c0, c1] => .ok [.num (rNeg (rDiv c0 c1))]
    | _ => .error "solve: degree above the modelled fragment"

/-- Model of `sympy.diff` with an order argument. -/
def symDiff (e : SymExpr) (v : String) (order : Int) : Except String SymExpr :=
  if order < 0 then .error "order of derivative must be nonnegative"
  else
    match toPoly v e with
    | .error m => .error m
    | .ok p => .ok (fromPoly v (Nat.rec p (fun _ q => polyDiff q) order.toNat))

/-- Model of indefinite `sympy.integrate`. -/
def symIntegrate (e : SymExpr) (v : String) : Except String SymExpr :=
  match toPoly v e with
  | .error m => .error m
  | .ok p => .ok (fromPoly v (polyIntegrate p))

/-- A definite-integral limit: SymPy sympifies strings, accepts numbers. -/
def evalLimit : PyVal → Except String Rat
  | .str s =>
    (match parseSymExpr s with
     | .ok (.num q) => .ok q
     | .ok _ => .error "limit is not a number"
     | .error m => .error m)
  | .int n => .ok (n : Rat)
  | .float q => .ok q
  | _ => .error "limit is not a number"

/-- Model of definite `sympy.integrate(expr, (var, lower, upper))`. -/
def symIntegrateDef (e : SymExpr) (v : String) (lower upper : PyVal) :
    Except String SymExpr :=
  match toPoly v e with
  | .error m => .error m
  | .ok p => do
    let lo ← evalLimit lower
    let hi ← evalLimit upper
    let anti := polyIntegrate p
    .ok (.num (rSub (polyEval anti hi) (polyEval anti lo)))

/-- The concrete engine: a small executable SymPy model on the polynomial
fragment.  `factor` is the identity (sound for irreducible inputs; the
factoring round-trip theorems treat `factor` abstractly). -/
def symEngine : SymEngine SymExpr where
  parse := parseSymExpr
  printExpr := printSymExpr
  sub := sSub
  solve := symSolve
  simplify e := .ok (symSimplify e)
  diff := symDiff
  integrate := symIntegrate
  integrateDef := symIntegrateDef
  factor e := .ok e
  expand := symSimplify

/-- Python `repr` of a float; exact for integral values (`3.0`), an
approximate rendering otherwise (no code path of this development reads
the non-integral case). -/
def floatRepr (q : Rat) : String :=
  if q.den = 1 then toString q.num ++ ".0" else toString q.num ++ "/" ++ toString q.den

mutual

/-- Python `repr` of a value. -/
def pyRepr : PyVal → String
  | .none => "None"
  | .bool b => if b then "True" else "False"
  | .int n => toString n
  | .float q => floatRepr q
  | .str s => "\x27" ++ s ++ "\x27"
  | .list l => "[" ++ pyReprList l ++ "]"
  | .dict d => "\x7b" ++ pyReprDict d ++ "\x7d"

/-- Comma-separated `repr` of list elements. -/
def pyReprList : PyList → String
  | .nil => ""
  | .cons v .nil => pyRepr v
  | .cons v tl => pyRepr v ++ ", " ++ pyReprList tl

/-- Comma-separated `repr` of dict items. -/
def pyReprDict : PyDict → String
  | .nil => ""
  | .cons k v .nil => "\x27" ++ k ++ "\x27: " ++ pyRepr v
  | .cons k v tl => "\x27" ++ k ++ "\x27: " ++ pyRepr v ++ ", " ++ pyReprDict tl

end

/-- Python `str` of a value, as an f-string interpolates it. -/
def pyStr : PyVal → String
  | .str s => s
  | v => pyRepr v

/-- The Python type name, for `AttributeError` messages. -/
def pyTypeName : PyVal → String
  | .none => "NoneType"
  | .bool _ => "bool"
  | .int _ => "int"
  | .float _ => "float"
  | .str _ => "str"
  | .list _ => "list"
  | .dict _ => "dict"

example : pyStr (.dict (.cons "operation" (.str "foo") .nil)) = "\x7b\x27operation\x27: \x27foo\x27\x7d" := rfl

/-- The character class kept by the arithmetic cleaning
`re.sub(r'[^0-9+\-*/().\s]', '', ...)`. -/
def isArithChar (c : Char) : Bool :=
  c.isDigit || ['+', '-', '*', '/', '(', ')', '.'].contains c || pyIsSpace c

/-- The cleaning step of `calculate_complex_arithmetic` (line 271): replace
every literal `x` by `*` (legacy multiplication quirk), then drop every
character outside the arithmetic class. -/
def cleanArith (s : String) : String :=
  ⟨(s.data.map fun c => if c = 'x' then '*' else c).filter isArithChar⟩

/-- `int(result)` / float-to-int recovery of the source, on the result of the
numeric model: `Integer` → Python int; `Float` equal to its truncation →
Python int, other `Float` → Python float; any other exact number →
`str(result)` (e.g. `"1/3"`). -/
def toNumericResult : SymNum → PyVal
  | .exact q => if q.den = 1 then .int q.num else .str (ratNumStr q)
  | .approx q => if q.den = 1 then .int q.num else .float q

/-- `MathTools.calculate_complex_arithmetic` (lines 258-308): clean, sympify,
keep exact numbers exact (`expr.is_number` always holds on the purely
numeric text that survives cleaning, so the `evalf` branch is never taken),
convert for JSON serialisation. -/
def calculate_complex_arithmetic (expression : String) : Envelope :=
  let cleaned := cleanArith expression
  match sympifyNum cleaned with
  | .ok n =>
    [("status", .str "success"),
     ("original_expression", .str expression),
     ("cleaned_expression", .str cleaned),
     ("result", toNumericResult n),
     ("result_type", .str "arithmetic"),
     ("precision", .str "high")]
  | .error e =>
    [("status", .str "error"),
     ("message", .str ("Error calculating arithmetic expression \x27" ++ (expression ++ ("\x27: " ++ e)))),
     ("original_expression", .str expression)]

/-!
The `solve_math` router (tools/math_tools.py lines 310-427).
-/

/-- The outcome of the two external calls the router starts with: the
routing-prompt file read (`None` models `FileNotFoundError`) and the text
of the classifier response (`routing_response.output_text`). -/
structure RoutingEnv where
  promptFileContent : Option String
  classifierOutputText : String

/-- The heuristic parameter extractors (`_extract_equation_from_query`,
`_extract_expression_from_query`, `_extract_arithmetic_from_query`,
`_extract_derivative_params`, `_extract_integral_params`, lines 429-558).
They are pure regex heuristics over the raw query; no claim of this
development constrains their output, so the router is verified for every
extractor behaviour. -/
structure Extractors where
  equationFromQuery : String → String
  expressionFromQuery : String → String
  arithmeticFromQuery : String → String
  derivativeParams : String → String × Int
  integralParams : String → String × Option (List PyVal)

/-- Does `l` start with `pat`?  (The pattern is matched first, so
`listHasPre l [] = true` holds definitionally for every `l`.) -/
def listHasPre (l pat : List Char) : Bool :=
  match pat, l with
  | [], _ => true
  | _ :: _, [] => false
  | b :: pat, a :: l => a = b && listHasPre l pat

/-- Markdown code-fence stripping (lines 354-356): if the stripped response
starts with three backticks, drop its first and last lines.  (`startswith`
is spelled out on the character list so that it evaluates.) -/
def stripFences (s : String) : String :=
  if listHasPre s.data "```".data then
    String.intercalate "\n" ((s.splitOn "\n").drop 1).dropLast
  else s

/-- Python `==` between a value and a string literal. -/
def isStrVal (v : PyVal) (s : String) : Bool :=
  match v with
  | .str t => t = s
  | _ => false

/-- Step 4 (lines 377-382): `context` starts empty; only when
`needs_context` is truthy and a fetcher was injected is it called, and only
a `status == "success"` result contributes `relevant_context` (missing key
defaults to `""`). -/
def fetchContext (needs_context : PyVal) (fetcher : Option (String → Envelope))
    (query : String) : PyVal :=
  match fetcher with
  | some f =>
    if pyTruthy needs_context then
      let cr := f query
      if (lookupField cr "status").any (fun v => isStrVal v "success") then
        match lookupField cr "relevant_context" with
        | some v => v
        | Option.none => .str ""
      else .str ""
    else .str ""
  | Option.none => .str ""

/-- `len(v)` for the values it is defined on. -/
def pyLen : PyVal → Except String Nat
  | .str s => .ok s.length
  | .list l => .ok l.length
  | .dict d => .ok d.length
  | v => .error ("object of type \x27" ++ pyTypeName v ++ "\x27 has no len()")

/-- Step 6's context preview
(`context[:100] + "..." if context and len(context) > 100 else context`,
line 416): a raised `TypeError` propagates to the router's outer handler. -/
def contextContent (v : PyVal) : Except String PyVal :=
  if pyTruthy v then
    match pyLen v with
    | .error e => .error e
    | .ok n =>
      if 100 < n then
        match v with
        | .str s => .ok (.str (String.mk (s.data.take 100) ++ "..."))
        | w => .error ("can only concatenate " ++ pyTypeName w ++ " to " ++ pyTypeName w)
      else .ok v
  else .ok v

/-- Step 5's dispatch chain (lines 385-404): the six known operations, in
source order; `Option.none` is the final `else` (unknown operation). -/
def dispatch {α : Type} (engine : SymEngine α) (ext : Extractors)
    (operation : PyVal) (query : String) : Option Envelope :=
  if isStrVal operation "solve_equation" then
    some (solve_equation engine (ext.equationFromQuery query))
  else if isStrVal operation "simplify_expression" then
    some (simplify_expression engine (ext.expressionFromQuery query))
  else if isStrVal operation "calculate_derivative" then
    let (v, order) := ext.derivativeParams query
    some (calculate_derivative engine (ext.expressionFromQuery query) v order)
  else if isStrVal operation "calculate_integral" then
    let (v, limits) := ext.integralParams query
    some (calculate_integral engine (ext.expressionFromQuery query) v limits)
  else if isStrVal operation "factor_expression" then
    some (factor_expression engine (ext.expressionFromQuery query))
  else if isStrVal operation "calculate_complex_arithmetic" then
    some (calculate_complex_arithmetic (ext.arithmeticFromQuery query))
  else
    Option.none

/-- `result["routing_decision"] = v`: Python dict assignment (overwrite in
place when the key exists, append otherwise). -/
def dictAssign (env : Envelope) (k : String) (v : PyVal) : Envelope :=
  if (List.lookup k env).isSome then
    env.map fun kv => if kv.1 = k then (k, v) else kv
  else
    env ++ [(k, v)]

/-- The routing-metadata dict of step 6 (lines 413-418). -/
def routingDecisionVal (operation needs_context cc : PyVal) (routingJson : String) : PyVal :=
  .dict (.cons "operation" operation
          (.cons "context_used" needs_context
            (.cons "context_content" cc
              (.cons "routing_json" (.str routingJson) .nil))))

/-- The body of `solve_math` inside its outer `try`: early returns are
`.ok` envelopes, a raised exception is `.error` with the exception text. -/
def solveMathInner {α : Type} (engine : SymEngine α)
    (jsonParse : String → Except String PyVal) (ext : Extractors)
    (renv : RoutingEnv) (fetcher : Option (String → Envelope))
    (query : String) : Except String Envelope :=
  match renv.promptFileContent with
  | Option.none =>
    .ok [("status", .str "error"),
         ("message", .str "Math routing prompt file not found: config/math_routing_prompt.txt"),
         ("query", .str query)]
  | some _ =>
    let routingJson := stripFences (pyStrip renv.classifierOutputText)
    match jsonParse routingJson with
    | .error e =>
      .ok [("status", .str "error"),
           ("message", .str ("Invalid JSON from routing LLM: " ++ (routingJson ++ (". Error: " ++ e)))),
           ("query", .str query)]
    | .ok routingDecision =>
      match routingDecision with
      | .dict kvs =>
        let operation := kvs.getD "operation" .none
        let needs_context := kvs.getD "needs_context" (.bool false)
        if pyTruthy operation then
          let context := fetchContext needs_context fetcher query
          match dispatch engine ext operation query with
          | some result =>
            (match contextContent context with
             | .error e => .error e
             | .ok cc =>
               .ok (dictAssign result "routing_decision"
                      (routingDecisionVal operation needs_context cc routingJson)))
          | Option.none =>
            .ok [("status", .str "error"),
                 ("message", .str ("Unknown operation: " ++ pyStr operation)),
                 ("query", .str query)]
        else
          .ok [("status", .str "error"),
               ("message", .str ("No operation specified in routing decision: " ++ pyStr routingDecision)),
               ("query", .str query)]
      | v =>
        .error ("\x27" ++ pyTypeName v ++ "\x27 object has no attribute \x27get\x27")

/-- `MathTools.solve_math` (lines 310-427): the inner stages wrapped by the
outer `except Exception` handler. -/
def solve_math {α : Type} (engine : SymEngine α)
    (jsonParse : String → Except String PyVal) (ext : Extractors)
    (renv : RoutingEnv) (fetcher : Option (String → Envelope))
    (query : String) : Envelope :=
  match solveMathInner engine jsonParse ext renv fetcher query with
  | .ok env => env
  | .error e =>
    [("status", .str "error"),
     ("message", .str ("Error in math routing: " ++ e)),
     ("query", .str query)]


/-!
Substring search (for message-content properties).
-/

/-- Does `pat` occur in `l` (at any position)? -/
def strContainsAux (pat : List Char) : List Char → Bool
  | [] => listHasPre [] pat
  | c :: tl => listHasPre (c :: tl) pat || strContainsAux pat tl

/-- Python's `pat in s` substring test. -/
def strContains (s pat : String) : Bool :=
  strContainsAux pat.data s.data

theorem listHasPre_append (pat rest : List Char) : listHasPre (pat ++ rest) pat = true := by
  induction pat with
  | nil => simp [listHasPre]
  | cons b pat ih => simp [listHasPre, ih]

/-- A string contains any of its leading literals. -/
theorem strContains_of_append (p s : String) : strContains (p ++ s) p = true := by
  show strContainsAux p.data (p ++ s).data = true
  rw [String.data_append]
  cases hd : p.data ++ s.data with
  | nil =>
    have hp : p.data = [] := (List.append_eq_nil.mp hd).1
    simp [strContainsAux, hp, listHasPre]
  | cons c tl =>
    have h := listHasPre_append p.data s.data
    rw [hd] at h
    simp [strContainsAux, h]

/-!
Claim theorems.
-/

/-- C3: `calculate_complex_arithmetic` preserves exact integer results as
Python ints: `"12345*67890"` evaluates to the Python int `838102050` with
`result_type == "arithmetic"` in a success envelope, and
`"222222+555555*10000"` evaluates to `5555772222`. -/
theorem c3_exact_integer_arithmetic :
    calculate_complex_arithmetic "12345*67890" =
      [("status", .str "success"),
       ("original_expression", .str "12345*67890"),
       ("cleaned_expression", .str "12345*67890"),
       ("result", .int 838102050),
       ("result_type", .str "arithmetic"),
       ("precision", .str "high")] ∧
    lookupField (calculate_complex_arithmetic "222222+555555*10000") "result" =
      some (.int 5555772222) :=
  ⟨rfl, rfl⟩

/-- C5: `calculate_integral` computes `1/3` as the definite integral of
`x**2` over `["0","1"]`, an indefinite `x**3/3` when no limits are given,
and a single-element limits list is a hard error whose message contains
`"exactly 2 values"`. -/
theorem c5_integral_limit_modes :
    calculate_integral symEngine "x**2" "x" (some [.str "0", .str "1"]) =
      [("status", .str "success"),
       ("original_expression", .str "x**2"),
       ("variable", .str "x"),
       ("limits", .list (pyListOf [.str "0", .str "1"])),
       ("integral_type", .str "definite"),
       ("integral", .str "1/3"),
       ("simplified_integral", .str "1/3")] ∧
    calculate_integral symEngine "x**2" "x" Option.none =
      [("status", .str "success"),
       ("original_expression", .str "x**2"),
       ("variable", .str "x"),
       ("limits", .none),
       ("integral_type", .str "indefinite"),
       ("integral", .str "x**3/3"),
       ("simplified_integral", .str "x**3/3")] ∧
    lookupField (calculate_integral symEngine "x**2" "x" (some [.str "0"])) "status" =
      some (.str "error") ∧
    lookupField (calculate_integral symEngine "x**2" "x" (some [.str "0"])) "message" =
      some (.str "Error calculating integral of \x27x**2\x27: Limits must be a list of exactly 2 values [lower, upper]") ∧
    strContains "Error calculating integral of \x27x**2\x27: Limits must be a list of exactly 2 values [lower, upper]" "exactly 2 values" = true :=
  ⟨rfl, rfl, rfl, rfl, rfl⟩

/-- If stripping empties a string, every character was whitespace. -/
theorem stripList_eq_nil_all_space {l : List Char} (h : stripList l = []) :
    ∀ c ∈ l, pyIsSpace c = true := by
  intro c hc
  have h1 : (l.dropWhile pyIsSpace).reverse.dropWhile pyIsSpace = [] := by
    have := congrArg List.reverse h
    simpa [stripList] using this
  have h2 : ∀ x ∈ (l.dropWhile pyIsSpace).reverse, pyIsSpace x = true :=
    List.dropWhile_eq_nil_iff.mp h1
  have h3 : ∀ x ∈ l.dropWhile pyIsSpace, pyIsSpace x = true := by
    intro x hx
    exact h2 x (List.mem_reverse.mpr hx)
  have hsplit : l = l.takeWhile pyIsSpace ++ l.dropWhile pyIsSpace :=
    (List.takeWhile_append_dropWhile pyIsSpace l).symm
  rcases List.mem_append.mp (hsplit ▸ hc) with hmem | hmem
  · exact List.mem_takeWhile_imp hmem
  · exact h3 c hmem

/-- Whitespace is on the allow-list. -/
theorem isAllowedChar_of_space {c : Char} (h : pyIsSpace c = true) :
    isAllowedChar c = true := by
  simp [isAllowedChar, h]

/-- C1: any input to `_parse_expression_safely` containing a character
outside the allow-list `[A-Za-z0-9+\-*/()^=.,_\s]` fails with the
invalid-characters error naming the offending character set, independently
of the parsing engine (so before any parsing); in particular the injection
probe `__import__('os').system('x')` is rejected this way. -/
theorem c1_sanitizer_hard_boundary :
    (∀ {α : Type} (engine : SymEngine α) (s : String),
      (∃ c ∈ s.data, ¬ isAllowedChar c = true) →
      parseExpressionSafely engine s =
        .error (.invalidChars ((s.data.filter fun c => !(isAllowedChar c)).eraseDups))) ∧
    (∀ {α : Type} (engine : SymEngine α),
      parseExpressionSafely engine "__import__(\x27os\x27).system(\x27x\x27)" =
        .error (.invalidChars [('\x27' : Char)])) := by
  constructor
  · intro α engine s h
    obtain ⟨c, hc, hbad⟩ := h
    have hbadb : isAllowedChar c = false := by
      revert hbad; cases isAllowedChar c <;> simp
    have hdata : s.data ≠ [] := by
      intro hn; rw [hn] at hc; exact absurd hc (List.not_mem_nil c)
    have hs : ¬ s = "" := by
      intro hn; exact hdata (by simp [hn])
    have hstrip : ¬ pyStrip s = "" := by
      intro hn
      have hnil : stripList s.data = [] := congrArg String.data hn
      have := isAllowedChar_of_space (stripList_eq_nil_all_space hnil c hc)
      rw [this] at hbadb; cases hbadb
    have hcf : c ∈ s.data.filter fun c => !(isAllowedChar c) :=
      List.mem_filter.mpr ⟨hc, by simp [hbadb]⟩
    have hfilter : (s.data.filter fun c => !(isAllowedChar c)).isEmpty = false := by
      cases hfe : (s.data.filter fun c => !(isAllowedChar c)).isEmpty
      · rfl
      · rw [List.isEmpty_iff] at hfe
        rw [hfe] at hcf
        exact absurd hcf (List.not_mem_nil c)
    simp [parseExpressionSafely, hs, hstrip, hfilter]
  · intro α engine
    rfl

/-- Witness for C1 at a concrete unsafe input. -/
theorem c1_sanitizer_hard_boundary_witness :
    parseExpressionSafely symEngine "a;b" = .error (.invalidChars [(';' : Char)]) :=
  c1_sanitizer_hard_boundary.1 symEngine "a;b" ⟨';', by decide, by decide⟩

/-!
Stripping lemmas: `_parse_expression_safely` behaves identically on `s` and
`s.strip()`, which underlies the `solve_equation` split analysis.
-/

theorem dropWhile_head?_not (p : Char → Bool) (l : List Char) :
    ∀ c, (l.dropWhile p).head? = some c → p c = false := by
  induction l with
  | nil => intro c hc; cases hc
  | cons a tl ih =>
    intro c hc
    cases ha : p a with
    | true => rw [List.dropWhile_cons_of_pos ha] at hc; exact ih c hc
    | false =>
      rw [List.dropWhile_cons_of_neg (by simp [ha])] at hc
      cases hc; exact ha

theorem dropWhile_eq_self_of_head (p : Char → Bool) (l : List Char)
    (h : ∀ c, l.head? = some c → p c = false) : l.dropWhile p = l := by
  cases l with
  | nil => rfl
  | cons a tl => exact List.dropWhile_cons_of_neg (by simp [h a rfl])

theorem getLast?_dropWhile (p : Char → Bool) (l : List Char)
    (h : l.dropWhile p ≠ []) : (l.dropWhile p).getLast? = l.getLast? := by
  induction l with
  | nil => exact absurd rfl h
  | cons a tl ih =>
    cases ha : p a with
    | true =>
      rw [List.dropWhile_cons_of_pos ha] at h ⊢
      have htl : tl ≠ [] := by
        intro he; rw [he] at h; exact h rfl
      rw [ih h]
      cases tl with
      | nil => exact absurd rfl htl
      | cons b tl2 => rfl
    | false => rw [List.dropWhile_cons_of_neg (by simp [ha])]

theorem stripList_idem (l : List Char) : stripList (stripList l) = stripList l := by
  have hA : ∀ c, (stripList l).head? = some c → pyIsSpace c = false := by
    intro c hc
    rw [stripList, List.head?_reverse] at hc
    rcases hY : (l.dropWhile pyIsSpace).reverse.dropWhile pyIsSpace with _ | ⟨d, tl⟩
    · rw [hY] at hc; cases hc
    · have hne : (l.dropWhile pyIsSpace).reverse.dropWhile pyIsSpace ≠ [] := by
        rw [hY]; simp
      rw [getLast?_dropWhile _ _ hne, List.getLast?_reverse] at hc
      exact dropWhile_head?_not _ _ c hc
  have hB : ∀ c, (stripList l).getLast? = some c → pyIsSpace c = false := by
    intro c hc
    rw [stripList, List.getLast?_reverse] at hc
    exact dropWhile_head?_not _ _ c hc
  show ((((stripList l).dropWhile pyIsSpace).reverse).dropWhile pyIsSpace).reverse = stripList l
  rw [dropWhile_eq_self_of_head _ _ hA]
  rw [dropWhile_eq_self_of_head _ _ (fun c hc => hB c (by rwa [List.head?_reverse] at hc))]
  exact List.reverse_reverse _

theorem filter_dropWhile (p q : Char → Bool) (hpq : ∀ c, q c = true → p c = false) :
    ∀ l : List Char, (l.dropWhile q).filter p = l.filter p := by
  intro l
  induction l with
  | nil => rfl
  | cons a tl ih =>
    cases ha : q a with
    | true =>
      rw [List.dropWhile_cons_of_pos ha, ih, List.filter_cons_of_neg (by simp [hpq a ha])]
    | false => rw [List.dropWhile_cons_of_neg (by simp [ha])]

theorem filter_rev (p : Char → Bool) (l : List Char) :
    l.reverse.filter p = (l.filter p).reverse := by
  induction l with
  | nil => rfl
  | cons a tl ih =>
    rw [List.reverse_cons, List.filter_append, ih, List.filter_cons]
    cases hp : p a <;> simp [hp]

theorem filter_stripList (p : Char → Bool) (hp : ∀ c, pyIsSpace c = true → p c = false)
    (l : List Char) : (stripList l).filter p = l.filter p := by
  show (((l.dropWhile pyIsSpace).reverse.dropWhile pyIsSpace).reverse).filter p = l.filter p
  rw [filter_rev, filter_dropWhile p pyIsSpace hp, filter_rev, List.reverse_reverse,
    filter_dropWhile p pyIsSpace hp]

theorem pyStrip_idem (s : String) : pyStrip (pyStrip s) = pyStrip s := by
  show (⟨stripList (stripList s.data)⟩ : String) = ⟨stripList s.data⟩
  rw [stripList_idem]

/-- The sanitizer is insensitive to outer whitespace: the scan ignores
whitespace (it is allowed), and the cleaning pipeline strips first. -/
theorem parseExpressionSafely_strip {α : Type} (engine : SymEngine α) (s : String) :
    parseExpressionSafely engine (pyStrip s) = parseExpressionSafely engine s := by
  by_cases h : pyStrip s = ""
  · by_cases hs : s = ""
    · rw [hs]
      rfl
    · rw [h]
      show parseExpressionSafely engine "" = parseExpressionSafely engine s
      simp [parseExpressionSafely, h]
  · have hs : ¬ s = "" := by
      intro he; rw [he] at h; exact h rfl
    have hstrip2 : pyStrip (pyStrip s) = pyStrip s := pyStrip_idem s
    have hfil : (pyStrip s).data.filter (fun c => !(isAllowedChar c)) =
        s.data.filter (fun c => !(isAllowedChar c)) := by
      show (stripList s.data).filter _ = _
      exact filter_stripList _ (fun c hc => by simp [isAllowedChar_of_space hc]) s.data
    have hclean : cleanExpression (pyStrip s) = cleanExpression s := by
      show (⟨mulLetterParen Option.none
        (mulParenLetter (mulDigitLetter (caretToPow (stripList (stripList s.data)))))⟩ : String) = _
      rw [stripList_idem]
      rfl
    simp only [parseExpressionSafely, hclean, hfil, hstrip2, h, hs]

theorem takeWhile_append_of_all (p : Char → Bool) (l1 l2 : List Char)
    (h : ∀ c ∈ l1, p c = true) : (l1 ++ l2).takeWhile p = l1 ++ l2.takeWhile p := by
  induction l1 with
  | nil => rfl
  | cons a tl ih =>
    rw [List.cons_append, List.takeWhile_cons_of_pos (h a (List.mem_cons_self a tl)),
      ih (fun c hc => h c (List.mem_cons_of_mem a hc)), List.cons_append]

theorem dropWhile_append_of_all (p : Char → Bool) (l1 l2 : List Char)
    (h : ∀ c ∈ l1, p c = true) : (l1 ++ l2).dropWhile p = l2.dropWhile p := by
  induction l1 with
  | nil => rfl
  | cons a tl ih =>
    rw [List.cons_append, List.dropWhile_cons_of_pos (h a (List.mem_cons_self a tl)),
      ih (fun c hc => h c (List.mem_cons_of_mem a hc))]

/-- Appending `"=0"` to an `=`-free equation splits back into the equation
and `"0"` (`equation.split("=", 1)`). -/
theorem splitEq_append (s : String) (h : s.data.elem '=' = false) :
    splitEqLeft (s ++ "=0") = s ∧ splitEqRight (s ++ "=0") = "0" := by
  have hmem : ∀ c ∈ s.data, (c != '=') = true := by
    intro c hc
    have : ¬ ('=' ∈ s.data) := fun hm => by
      rw [List.elem_eq_true_of_mem hm] at h; cases h
    have hne : c ≠ '=' := fun he => this (he ▸ hc)
    simpa using hne
  have hdata : (s ++ "=0").data = s.data ++ ['=', '0'] := by
    rw [String.data_append]
  constructor
  · show (⟨(s ++ "=0").data.takeWhile fun c => c != '='⟩ : String) = s
    rw [hdata, takeWhile_append_of_all _ _ _ hmem]
    show (⟨s.data ++ ([] : List Char)⟩ : String) = s
    rw [List.append_nil]
  · show (⟨((s ++ "=0").data.dropWhile fun c => c != '=').drop 1⟩ : String) = "0"
    rw [hdata, dropWhile_append_of_all _ _ _ hmem]
    rfl

theorem rAdd_zero (a : Rat) : rAdd a 0 = a := by
  show mkRat (a.num * 1 + 0 * a.den) (a.den * 1) = a
  simp [Rat.mkRat_self]

/-- SymPy's auto-evaluation makes `e - 0` the expression itself. -/
theorem sSub_zero (e : SymExpr) : sSub e (.num 0) = e := by
  show sAdd e (sNeg (.num 0)) = e
  have h0 : sNeg (.num 0) = .num 0 := rfl
  rw [h0]
  cases e with
  | num a =>
    show SymExpr.num (rAdd a 0) = SymExpr.num a
    rw [rAdd_zero]
  | sym s => rfl
  | add a b => rfl
  | mul a b => rfl
  | pow a b => rfl

/-- C6 counterexample: the claim's "returns the same result" fails as full
envelope equality — the echoed `equation` field differs (`"5"` vs `"5=0"`). -/
theorem c6_counterexample :
    solve_equation symEngine "5" "x" ≠ solve_equation symEngine "5=0" "x" := by
  intro h
  have h2 := congrArg (fun env => lookupField env "equation") h
  have hL : lookupField (solve_equation symEngine "5" "x") "equation" = some (.str "5") := rfl
  have hR : lookupField (solve_equation symEngine "5=0" "x") "equation" = some (.str "5=0") := rfl
  simp only at h2
  rw [hL, hR] at h2
  simp only [Option.some.injEq, PyVal.str.injEq] at h2
  exact absurd h2 (by decide)

/-- An envelope with some keys removed (the values of the remaining keys are
untouched, as is their order). -/
def envWithout (env : Envelope) (ks : List String) : Envelope :=
  env.filter fun kv => !(ks.contains kv.1)

/-- C6 (amended): for an `=`-free equation, `solve_equation(expr)` and
`solve_equation(expr + "=0")` agree on every field except the echoed
`equation` text (and the error `message`, which embeds that text): the right
side is split into `expr` and `"0"`, and SymPy's auto-evaluation of
`left - 0` yields the expression the no-`=` branch parses. -/
theorem c6_amended_no_eq_equiv {α : Type} (engine : SymEngine α)
    (equation varName : String) (z : α)
    (hnoeq : equation.data.elem '=' = false)
    (h0 : engine.parse "0" = .ok z)
    (hsub : ∀ e, engine.sub e z = e) :
    envWithout (solve_equation engine equation varName) ["equation", "message"] =
    envWithout (solve_equation engine (equation ++ "=0") varName) ["equation", "message"] := by
  have helemR : (equation ++ "=0").data.elem '=' = true := by
    have hmem : '=' ∈ (equation ++ "=0").data := by
      rw [String.data_append]
      exact List.mem_append_right _ (List.mem_cons_self _ _)
    exact List.elem_eq_true_of_mem hmem
  obtain ⟨hsplL, hsplR⟩ := splitEq_append equation hnoeq
  have hp0 : parseExpressionSafely engine (pyStrip (splitEqRight (equation ++ "=0"))) = .ok z := by
    rw [hsplR]
    show parseExpressionSafely engine "0" = .ok z
    have hred : parseExpressionSafely engine "0" =
        (match engine.parse "0" with
         | .ok e => .ok e
         | .error msg => .error (.sympyFailure msg)) := rfl
    rw [hred, h0]
  have hpL : parseExpressionSafely engine (pyStrip (splitEqLeft (equation ++ "=0"))) =
      parseExpressionSafely engine equation := by
    rw [hsplL]
    exact parseExpressionSafely_strip engine equation
  simp only [solve_equation, hnoeq, helemR, hp0, hpL, if_true, if_false, Bool.false_eq_true,
    reduceIte]
  cases hp : parseExpressionSafely engine equation with
  | error e => rfl
  | ok l =>
    dsimp only
    rw [hsub l]
    cases hs : engine.solve l varName with
    | error e => rfl
    | ok sols => rfl

/-- Witness for C6's amended statement at `solve_equation("5")` against the
concrete engine. -/
theorem c6_amended_no_eq_equiv_witness :
    envWithout (solve_equation symEngine "5" "x") ["equation", "message"] =
    envWithout (solve_equation symEngine "5=0" "x") ["equation", "message"] :=
  c6_amended_no_eq_equiv symEngine "5" "x" (.num 0) (by decide) rfl sSub_zero

/-!
Envelope well-formedness (claim C2).
-/

/-- `status` is either `"success"` or `"error"`. -/
def envStatusOk (env : Envelope) : Prop :=
  lookupField env "status" = some (.str "success") ∨
  lookupField env "status" = some (.str "error")

/-- An error status comes with a non-empty message. -/
def envErrMsgOk (env : Envelope) : Prop :=
  lookupField env "status" = some (.str "error") →
  ∃ m, lookupField env "message" = some (.str m) ∧ ¬ m = ""

/-- All the listed fields are present. -/
def fieldsPresent (env : Envelope) (fs : List String) : Prop :=
  ∀ f ∈ fs, (lookupField env f).isSome = true

/-- The envelope contract of §3 of the specification, for one operation's
success fields. -/
def envelopeOk (env : Envelope) (fs : List String) : Prop :=
  envStatusOk env ∧ envErrMsgOk env ∧
  (lookupField env "status" = some (.str "success") → fieldsPresent env fs)

theorem append_ne_empty (p s : String) (hp : ¬ p = "") : ¬ (p ++ s = "") := by
  intro h
  apply hp
  have hd := congrArg String.data h
  rw [String.data_append] at hd
  have hnil : p.data = [] := (List.append_eq_nil.mp hd).1
  cases p
  cases hnil
  rfl

theorem envelopeOk_error (lit rest : String) (hlit : ¬ lit = "") (tail : Envelope)
    (fs : List String) :
    envelopeOk (("status", .str "error") :: ("message", .str (lit ++ rest)) :: tail) fs := by
  refine ⟨Or.inr rfl, fun _ => ⟨lit ++ rest, rfl, append_ne_empty lit rest hlit⟩, fun h => ?_⟩
  simp [lookupField, List.lookup] at h

theorem envelopeOk_success (rest : Envelope) (fs : List String)
    (hall : fieldsPresent (("status", PyVal.str "success") :: rest) fs) :
    envelopeOk (("status", .str "success") :: rest) fs := by
  refine ⟨Or.inl rfl, fun h => ?_, fun _ => hall⟩
  simp [lookupField, List.lookup] at h

/-- The success-field sets of the six operations. -/
def solveFields : List String := ["solutions", "solution_count", "solution_type"]

/-- Success fields of `simplify_expression`. -/
def simplifyFields : List String := ["simplified_expression", "is_simplified"]

/-- Success fields of `calculate_derivative`. -/
def derivativeFields : List String := ["derivative", "simplified_derivative", "order"]

/-- Success fields of `calculate_integral`. -/
def integralFields : List String := ["integral", "integral_type", "simplified_integral"]

/-- Success fields of `factor_expression`. -/
def factorFields : List String := ["factored_expression", "is_factored"]

/-- Success fields of `calculate_complex_arithmetic`. -/
def arithmeticFields : List String := ["result", "result_type", "precision"]

theorem solve_equation_ok {α : Type} (engine : SymEngine α) (equation varName : String) :
    envelopeOk (solve_equation engine equation varName) solveFields ∧
    lookupField (solve_equation engine equation varName) "routing_decision" = Option.none := by
  unfold solve_equation
  repeat' (first | split | dsimp only)
  all_goals
    first
      | exact ⟨envelopeOk_success _ _
          (by intro f hf; simp [solveFields] at hf; rcases hf with rfl | rfl | rfl <;> rfl), rfl⟩
      | exact ⟨envelopeOk_success _ _
          (by intro f hf; simp [solveFields] at hf; rcases hf with rfl | rfl <;> rfl), rfl⟩
      | exact ⟨envelopeOk_error "Error solving equation \x27" _ (by decide) _ _, rfl⟩

theorem simplify_expression_ok {α : Type} (engine : SymEngine α) (expression : String) :
    envelopeOk (simplify_expression engine expression) simplifyFields ∧
    lookupField (simplify_expression engine expression) "routing_decision" = Option.none := by
  unfold simplify_expression
  repeat' (first | split | dsimp only)
  all_goals
    first
      | exact ⟨envelopeOk_success _ _
          (by intro f hf; simp [simplifyFields] at hf; rcases hf with rfl | rfl | rfl <;> rfl), rfl⟩
      | exact ⟨envelopeOk_success _ _
          (by intro f hf; simp [simplifyFields] at hf; rcases hf with rfl | rfl <;> rfl), rfl⟩
      | exact ⟨envelopeOk_error "Error simplifying expression \x27" _ (by decide) _ _, rfl⟩

theorem calculate_derivative_ok {α : Type} (engine : SymEngine α) (expression varName : String)
    (order : Int) :
    envelopeOk (calculate_derivative engine expression varName order) derivativeFields ∧
    lookupField (calculate_derivative engine expression varName order) "routing_decision" =
      Option.none := by
  unfold calculate_derivative
  repeat' (first | split | dsimp only)
  all_goals
    first
      | exact ⟨envelopeOk_success _ _
          (by intro f hf; simp [derivativeFields] at hf; rcases hf with rfl | rfl | rfl <;> rfl), rfl⟩
      | exact ⟨envelopeOk_success _ _
          (by intro f hf; simp [derivativeFields] at hf; rcases hf with rfl | rfl <;> rfl), rfl⟩
      | exact ⟨envelopeOk_error "Error calculating derivative of \x27" _ (by decide) _ _, rfl⟩

theorem calculate_integral_ok {α : Type} (engine : SymEngine α) (expression varName : String)
    (limits : Option (List PyVal)) :
    envelopeOk (calculate_integral engine expression varName limits) integralFields ∧
    lookupField (calculate_integral engine expression varName limits) "routing_decision" =
      Option.none := by
  unfold calculate_integral
  repeat' (first | split | dsimp only)
  all_goals
    first
      | exact ⟨envelopeOk_success _ _
          (by intro f hf; simp [integralFields] at hf; rcases hf with rfl | rfl | rfl <;> rfl), rfl⟩
      | exact ⟨envelopeOk_success _ _
          (by intro f hf; simp [integralFields] at hf; rcases hf with rfl | rfl <;> rfl), rfl⟩
      | exact ⟨envelopeOk_error "Error calculating integral of \x27" _ (by decide) _ _, rfl⟩

theorem factor_expression_ok {α : Type} (engine : SymEngine α) (expression : String) :
    envelopeOk (factor_expression engine expression) factorFields ∧
    lookupField (factor_expression engine expression) "routing_decision" = Option.none := by
  unfold factor_expression
  repeat' (first | split | dsimp only)
  all_goals
    first
      | exact ⟨envelopeOk_success _ _
          (by intro f hf; simp [factorFields] at hf; rcases hf with rfl | rfl | rfl <;> rfl), rfl⟩
      | exact ⟨envelopeOk_success _ _
          (by intro f hf; simp [factorFields] at hf; rcases hf with rfl | rfl <;> rfl), rfl⟩
      | exact ⟨envelopeOk_error "Error factoring expression \x27" _ (by decide) _ _, rfl⟩

theorem calculate_complex_arithmetic_ok (expression : String) :
    envelopeOk (calculate_complex_arithmetic expression) arithmeticFields ∧
    lookupField (calculate_complex_arithmetic expression) "routing_decision" = Option.none := by
  unfold calculate_complex_arithmetic
  repeat' (first | split | dsimp only)
  all_goals
    first
      | exact ⟨envelopeOk_success _ _
          (by intro f hf; simp [arithmeticFields] at hf; rcases hf with rfl | rfl | rfl <;> rfl), rfl⟩
      | exact ⟨envelopeOk_success _ _
          (by intro f hf; simp [arithmeticFields] at hf; rcases hf with rfl | rfl <;> rfl), rfl⟩
      | exact ⟨envelopeOk_error "Error calculating arithmetic expression \x27" _ (by decide) _ _, rfl⟩

/-- Some operation's envelope contract holds. -/
def anyOpEnvelopeOk (env : Envelope) : Prop :=
  envelopeOk env solveFields ∨ envelopeOk env simplifyFields ∨
  envelopeOk env derivativeFields ∨ envelopeOk env integralFields ∨
  envelopeOk env factorFields ∨ envelopeOk env arithmeticFields

theorem dispatch_anyOk {α : Type} (engine : SymEngine α) (ext : Extractors) (op : PyVal)
    (query : String) (result : Envelope) (h : dispatch engine ext op query = some result) :
    anyOpEnvelopeOk result := by
  unfold dispatch at h
  split_ifs at h
  · cases h; exact Or.inl (solve_equation_ok _ _ _).1
  · cases h; exact Or.inr (Or.inl (simplify_expression_ok _ _).1)
  · cases h; exact Or.inr (Or.inr (Or.inl (calculate_derivative_ok _ _ _ _).1))
  · cases h; exact Or.inr (Or.inr (Or.inr (Or.inl (calculate_integral_ok _ _ _ _).1)))
  · cases h; exact Or.inr (Or.inr (Or.inr (Or.inr (Or.inl (factor_expression_ok _ _).1))))
  · cases h; exact Or.inr (Or.inr (Or.inr (Or.inr (Or.inr (calculate_complex_arithmetic_ok _).1))))

theorem dispatch_no_routing_decision {α : Type} (engine : SymEngine α) (ext : Extractors)
    (op : PyVal) (query : String) (result : Envelope)
    (h : dispatch engine ext op query = some result) :
    lookupField result "routing_decision" = Option.none := by
  unfold dispatch at h
  split_ifs at h
  · cases h; exact (solve_equation_ok _ _ _).2
  · cases h; exact (simplify_expression_ok _ _).2
  · cases h; exact (calculate_derivative_ok _ _ _ _).2
  · cases h; exact (calculate_integral_ok _ _ _ _).2
  · cases h; exact (factor_expression_ok _ _).2
  · cases h; exact (calculate_complex_arithmetic_ok _).2

theorem lookup_append_single (env : Envelope) (k k2 : String) (v : PyVal)
    (h : (k2 == k) = false) :
    List.lookup k2 (env ++ [(k, v)]) = List.lookup k2 env := by
  induction env with
  | nil => simp [List.lookup, h]
  | cons kv tl ih =>
    cases kv with
    | mk a b => cases hka : (k2 == a) <;> simp [List.lookup, hka, ih]

theorem lookup_map_replace (env : Envelope) (k k2 : String) (v : PyVal)
    (h : (k2 == k) = false) :
    List.lookup k2 (env.map fun kv => if kv.1 = k then (k, v) else kv) =
    List.lookup k2 env := by
  induction env with
  | nil => rfl
  | cons kv tl ih =>
    obtain ⟨a, b⟩ := kv
    rw [List.map_cons]
    by_cases hak : a = k
    · subst hak
      rw [if_pos rfl]
      cases hka : (k2 == a) with
      | false => simp [List.lookup, hka, ih]
      | true => rw [hka] at h; cases h
    · rw [if_neg (by simpa using hak)]
      cases hka : (k2 == a) with
      | false => simp [List.lookup, hka, ih]
      | true => simp [List.lookup, hka]

/-- Python dict assignment leaves every other key's lookup unchanged. -/
theorem lookupField_dictAssign_ne (env : Envelope) (k k2 : String) (v : PyVal)
    (h : ¬ k2 = k) : lookupField (dictAssign env k v) k2 = lookupField env k2 := by
  have hb : (k2 == k) = false := beq_eq_false_iff_ne.mpr h
  unfold dictAssign lookupField
  split
  · exact lookup_map_replace env k k2 v hb
  · exact lookup_append_single env k k2 v hb

/-- The envelope contract of the router: a well-formed status, a non-empty
message on error, and on success the fields of one of the six operations. -/
def routerEnvelopeOk (env : Envelope) : Prop :=
  envStatusOk env ∧ envErrMsgOk env ∧
  (lookupField env "status" = some (.str "success") →
    (fieldsPresent env solveFields ∨ fieldsPresent env simplifyFields ∨
     fieldsPresent env derivativeFields ∨ fieldsPresent env integralFields ∨
     fieldsPresent env factorFields ∨ fieldsPresent env arithmeticFields))

theorem routerEnvelopeOk_of_error (lit rest : String) (hlit : ¬ lit = "") (tail : Envelope) :
    routerEnvelopeOk (("status", .str "error") :: ("message", .str (lit ++ rest)) :: tail) := by
  refine ⟨Or.inr rfl, fun _ => ⟨lit ++ rest, rfl, append_ne_empty lit rest hlit⟩, fun h => ?_⟩
  simp [lookupField, List.lookup] at h

theorem fieldsPresent_dictAssign (result : Envelope) (v : PyVal) (fs : List String)
    (hfs : ∀ f ∈ fs, ¬ f = "routing_decision") (h : fieldsPresent result fs) :
    fieldsPresent (dictAssign result "routing_decision" v) fs := by
  intro f hf
  rw [lookupField_dictAssign_ne _ _ _ _ (hfs f hf)]
  exact h f hf

theorem routerEnvelopeOk_dictAssign (result : Envelope) (v : PyVal)
    (hok : anyOpEnvelopeOk result) :
    routerEnvelopeOk (dictAssign result "routing_decision" v) := by
  have hstatus : lookupField (dictAssign result "routing_decision" v) "status" =
      lookupField result "status" :=
    lookupField_dictAssign_ne result _ _ v (by decide)
  have hmessage : lookupField (dictAssign result "routing_decision" v) "message" =
      lookupField result "message" :=
    lookupField_dictAssign_ne result _ _ v (by decide)
  have base : ∀ fs : List String, (∀ f ∈ fs, ¬ f = "routing_decision") →
      envelopeOk result fs →
      envStatusOk (dictAssign result "routing_decision" v) ∧
      envErrMsgOk (dictAssign result "routing_decision" v) ∧
      (lookupField (dictAssign result "routing_decision" v) "status" = some (.str "success") →
        fieldsPresent (dictAssign result "routing_decision" v) fs) := by
    intro fs hfs hok1
    obtain ⟨hstat, hmsg, hsucc⟩ := hok1
    refine ⟨?_, ?_, ?_⟩
    · unfold envStatusOk at hstat ⊢
      rw [hstatus]
      exact hstat
    · unfold envErrMsgOk at hmsg ⊢
      intro he
      rw [hstatus] at he
      obtain ⟨m, hm, hne⟩ := hmsg he
      exact ⟨m, by rw [hmessage]; exact hm, hne⟩
    · intro hs
      rw [hstatus] at hs
      exact fieldsPresent_dictAssign _ _ _ hfs (hsucc hs)
  rcases hok with h | h | h | h | h | h
  · obtain ⟨h1, h2, h3⟩ := base solveFields (by decide) h
    exact ⟨h1, h2, fun hs => Or.inl (h3 hs)⟩
  · obtain ⟨h1, h2, h3⟩ := base simplifyFields (by decide) h
    exact ⟨h1, h2, fun hs => Or.inr (Or.inl (h3 hs))⟩
  · obtain ⟨h1, h2, h3⟩ := base derivativeFields (by decide) h
    exact ⟨h1, h2, fun hs => Or.inr (Or.inr (Or.inl (h3 hs)))⟩
  · obtain ⟨h1, h2, h3⟩ := base integralFields (by decide) h
    exact ⟨h1, h2, fun hs => Or.inr (Or.inr (Or.inr (Or.inl (h3 hs))))⟩
  · obtain ⟨h1, h2, h3⟩ := base factorFields (by decide) h
    exact ⟨h1, h2, fun hs => Or.inr (Or.inr (Or.inr (Or.inr (Or.inl (h3 hs)))))⟩
  · obtain ⟨h1, h2, h3⟩ := base arithmeticFields (by decide) h
    exact ⟨h1, h2, fun hs => Or.inr (Or.inr (Or.inr (Or.inr (Or.inr (h3 hs)))))⟩

set_option maxHeartbeats 1600000 in
theorem solve_math_ok {α : Type} (engine : SymEngine α)
    (jsonParse : String → Except String PyVal) (ext : Extractors)
    (renv : RoutingEnv) (fetcher : Option (String → Envelope)) (query : String) :
    routerEnvelopeOk (solve_math engine jsonParse ext renv fetcher query) := by
  unfold solve_math solveMathInner
  split
  · rename_i env heq
    repeat' (first | split at heq | dsimp only at heq)
    all_goals
      first
        | (cases heq
           exact routerEnvelopeOk_dictAssign _ _ (dispatch_anyOk _ _ _ _ _ (by assumption)))
        | (cases heq
           exact routerEnvelopeOk_of_error _ _ (by decide) _)
        | (cases heq
           exact routerEnvelopeOk_of_error
             "Math routing prompt file not found: config/math_routing_prompt.txt" "" (by decide) _)
        | cases heq
  · rename_i e heq
    exact routerEnvelopeOk_of_error "Error in math routing: " _ (by decide) _

/-- C2: every public math operation and `solve_math` returns an envelope for
every input (the functions are total in the model, mirroring the
catch-all handlers): `status` is `"success"` or `"error"`, an error status
comes with a present non-empty `message`, and a success status comes with
the operation-specific fields (for `solve_math`, the fields of the
dispatched operation). -/
theorem c2_envelope_contract :
    (∀ {α : Type} (engine : SymEngine α) (equation varName : String),
      envelopeOk (solve_equation engine equation varName) solveFields) ∧
    (∀ {α : Type} (engine : SymEngine α) (expression : String),
      envelopeOk (simplify_expression engine expression) simplifyFields) ∧
    (∀ {α : Type} (engine : SymEngine α) (expression varName : String) (order : Int),
      envelopeOk (calculate_derivative engine expression varName order) derivativeFields) ∧
    (∀ {α : Type} (engine : SymEngine α) (expression varName : String)
      (limits : Option (List PyVal)),
      envelopeOk (calculate_integral engine expression varName limits) integralFields) ∧
    (∀ {α : Type} (engine : SymEngine α) (expression : String),
      envelopeOk (factor_expression engine expression) factorFields) ∧
    (∀ expression : String,
      envelopeOk (calculate_complex_arithmetic expression) arithmeticFields) ∧
    (∀ {α : Type} (engine : SymEngine α) (jsonParse : String → Except String PyVal)
      (ext : Extractors) (renv : RoutingEnv) (fetcher : Option (String → Envelope))
      (query : String),
      routerEnvelopeOk (solve_math engine jsonParse ext renv fetcher query)) :=
  ⟨fun engine eq v => (solve_equation_ok engine eq v).1,
   fun engine e => (simplify_expression_ok engine e).1,
   fun engine e v o => (calculate_derivative_ok engine e v o).1,
   fun engine e v l => (calculate_integral_ok engine e v l).1,
   fun engine e => (factor_expression_ok engine e).1,
   fun e => (calculate_complex_arithmetic_ok e).1,
   fun engine jp ext renv f q => solve_math_ok engine jp ext renv f q⟩

/-- Witness for C2 at a concrete call of `solve_equation`. -/
theorem c2_envelope_contract_witness :
    envStatusOk (solve_equation symEngine "5" "x") :=
  (c2_envelope_contract.1 symEngine "5" "x").1

/-!
Claim C9: the limits-error characterisation of `calculate_integral`.
-/

/-- The `ValueError` text of the limits check (line 201). -/
def limitsMsg : String := "Limits must be a list of exactly 2 values [lower, upper]"

/-- The envelope `calculate_integral` produces when the limits check raises. -/
def limitsErrorEnv (expression varName : String) (limits : Option (List PyVal)) : Envelope :=
  [("status", .str "error"),
   ("message", .str ("Error calculating integral of \x27" ++ (expression ++ ("\x27: " ++ limitsMsg)))),
   ("original_expression", .str expression),
   ("variable", .str varName),
   ("limits", limitsVal limits)]

theorem string_append_cancel_left (a b c : String) (h : a ++ b = a ++ c) : b = c := by
  have h1 := congrArg String.data h
  rw [String.data_append, String.data_append] at h1
  have h2 := List.append_cancel_left h1
  cases b
  cases c
  exact congrArg String.mk h2

theorem intMsg_inj (expression X Y : String)
    (h : ("Error calculating integral of \x27" ++ (expression ++ ("\x27: " ++ X))) =
         ("Error calculating integral of \x27" ++ (expression ++ ("\x27: " ++ Y)))) : X = Y := by
  have h1 := string_append_cancel_left _ _ _ h
  have h2 := string_append_cancel_left _ _ _ h1
  exact string_append_cancel_left _ _ _ h2

theorem invalid_prefix_ne (X : String) :
    ¬ ("Invalid mathematical expression: " ++ X = limitsMsg) := by
  intro h
  have h2 := congrArg (fun s => s.data.head?) h
  dsimp only at h2
  have hL : ("Invalid mathematical expression: " ++ X).data.head? = some 'I' := by
    rw [String.data_append]
    rfl
  rw [hL] at h2
  have hR : limitsMsg.data.head? = some 'L' := rfl
  rw [hR] at h2
  exact absurd h2 (by decide)

/-- No sanitizer failure message is the limits message. -/
theorem parseError_message_ne_limits (e : ParseError) : ¬ e.message = limitsMsg := by
  cases e with
  | emptyExpr => exact invalid_prefix_ne "Empty expression"
  | invalidChars cs => exact invalid_prefix_ne _
  | sympyFailure m => exact invalid_prefix_ne _

/-- C9 counterexample: with a truthy limits list of length 1 but an
unparseable (empty) expression, `calculate_integral` fails with the parse
error, not the limits error — the parse at line 195 runs before the limits
check at line 200, so the claimed equivalence fails in this direction. -/
theorem c9_counterexample :
    ¬ ([PyVal.str "0"] = ([] : List PyVal)) ∧
    ¬ ([PyVal.str "0"].length = 2) ∧
    calculate_integral symEngine "" "x" (some [.str "0"]) ≠
      limitsErrorEnv "" "x" (some [.str "0"]) ∧
    lookupField (calculate_integral symEngine "" "x" (some [.str "0"])) "status" =
      some (.str "error") ∧
    lookupField (calculate_integral symEngine "" "x" (some [.str "0"])) "message" =
      some (.str "Error calculating integral of \x27\x27: Invalid mathematical expression: Empty expression") ∧
    strContains "Error calculating integral of \x27\x27: Invalid mathematical expression: Empty expression"
      "exactly 2 values" = false := by
  refine ⟨by simp, by decide, ?_, rfl, rfl, by decide⟩
  intro h
  have h2 := congrArg (fun env => lookupField env "message") h
  dsimp only at h2
  have hL : lookupField (calculate_integral symEngine "" "x" (some [.str "0"])) "message" =
      some (.str "Error calculating integral of \x27\x27: Invalid mathematical expression: Empty expression") := rfl
  have hR : lookupField (limitsErrorEnv "" "x" (some [.str "0"])) "message" =
      some (.str ("Error calculating integral of \x27" ++ ("" ++ ("\x27: " ++ limitsMsg)))) := rfl
  rw [hL, hR] at h2
  simp only [Option.some.injEq, PyVal.str.injEq] at h2
  exact absurd h2 (by decide)

/-- C9 (amended): `calculate_integral` returns the limits error exactly when
the expression parses successfully AND the limits argument is truthy
(non-`None`, non-empty) with length ≠ 2 — the parse happens first, so an
unparseable expression pre-empts the limits error; and an empty limits list
is treated the same as no limits (the envelopes agree except for the echoed
`limits` field).  The hypotheses state that the engine's own failure
messages never equal the limits `ValueError` text, which is a string this
code base alone raises. -/
theorem c9_limits_error_characterisation {α : Type} (engine : SymEngine α)
    (hInt : ∀ t v m, engine.integrate t v = .error m → ¬ m = limitsMsg)
    (hDef : ∀ t v lo hi m, engine.integrateDef t v lo hi = .error m → ¬ m = limitsMsg)
    (hSimp : ∀ t m, engine.simplify t = .error m → ¬ m = limitsMsg) :
    (∀ (expression varName : String) (limits : Option (List PyVal)),
      calculate_integral engine expression varName limits =
        limitsErrorEnv expression varName limits ↔
      ((∃ t, parseExpressionSafely engine expression = .ok t) ∧
       (∃ l, limits = some l ∧ ¬ l = [] ∧ ¬ l.length = 2))) ∧
    (∀ (expression varName : String),
      envWithout (calculate_integral engine expression varName (some [])) ["limits"] =
      envWithout (calculate_integral engine expression varName Option.none) ["limits"]) := by
  constructor
  · intro expression varName limits
    constructor
    · -- necessity
      intro h
      cases hp : parseExpressionSafely engine expression with
      | error e =>
        exfalso
        simp only [calculate_integral, hp] at h
        (try dsimp only at h)
        have h2 := congrArg (fun env => lookupField env "message") h
        dsimp only at h2
        simp [lookupField, List.lookup, limitsErrorEnv] at h2
        exact absurd (intMsg_inj _ _ _ h2) (parseError_message_ne_limits e)
      | ok t =>
        refine ⟨⟨t, rfl⟩, ?_⟩
        cases limits with
        | none =>
          exfalso
          simp only [calculate_integral, hp] at h
          (try dsimp only at h)
          cases hi : engine.integrate t varName with
          | error m =>
            rw [hi] at h
            (try dsimp only at h)
            have h2 := congrArg (fun env => lookupField env "message") h
            dsimp only at h2
            simp [lookupField, List.lookup, limitsErrorEnv] at h2
            exact absurd (intMsg_inj _ _ _ h2) (hInt t varName m hi)
          | ok i =>
            rw [hi] at h
            (try dsimp only at h)
            cases hs : engine.simplify i with
            | error m =>
              rw [hs] at h
              (try dsimp only at h)
              have h2 := congrArg (fun env => lookupField env "message") h
              dsimp only at h2
              simp [lookupField, List.lookup, limitsErrorEnv] at h2
              exact absurd (intMsg_inj _ _ _ h2) (hSimp i m hs)
            | ok si =>
              rw [hs] at h
              (try dsimp only at h)
              have h2 := congrArg (fun env => lookupField env "status") h
              dsimp only at h2
              simp [lookupField, List.lookup, limitsErrorEnv] at h2
        | some l =>
          cases l with
          | nil =>
            exfalso
            simp only [calculate_integral, hp] at h
            (try dsimp only at h)
            simp only [List.isEmpty_nil, Bool.not_true, Bool.false_eq_true, reduceIte] at h
            cases hi : engine.integrate t varName with
            | error m =>
              rw [hi] at h
              (try dsimp only at h)
              have h2 := congrArg (fun env => lookupField env "message") h
              dsimp only at h2
              simp [lookupField, List.lookup, limitsErrorEnv] at h2
              exact absurd (intMsg_inj _ _ _ h2) (hInt t varName m hi)
            | ok i =>
              rw [hi] at h
              (try dsimp only at h)
              cases hs : engine.simplify i with
              | error m =>
                rw [hs] at h
                (try dsimp only at h)
                have h2 := congrArg (fun env => lookupField env "message") h
                dsimp only at h2
                simp [lookupField, List.lookup, limitsErrorEnv] at h2
                exact absurd (intMsg_inj _ _ _ h2) (hSimp i m hs)
              | ok si =>
                rw [hs] at h
                (try dsimp only at h)
                have h2 := congrArg (fun env => lookupField env "status") h
                dsimp only at h2
                simp [lookupField, List.lookup, limitsErrorEnv] at h2
          | cons a l1 =>
            by_cases hl2 : (a :: l1).length = 2
            · exfalso
              obtain ⟨b, rfl⟩ : ∃ b, l1 = [b] := by
                cases l1 with
                | nil => simp at hl2
                | cons b l2 =>
                  cases l2 with
                  | nil => exact ⟨b, rfl⟩
                  | cons c l3 => simp at hl2
              simp only [calculate_integral, hp] at h
              (try dsimp only at h)
              simp only [List.isEmpty_cons, Bool.not_false, reduceIte] at h
              rw [show (([a, b] : List PyVal).length != 2) = false from rfl] at h
              simp only [Bool.false_eq_true, reduceIte] at h
              cases hd : engine.integrateDef t varName a b with
              | error m =>
                rw [hd] at h
                (try dsimp only at h)
                have h2 := congrArg (fun env => lookupField env "message") h
                dsimp only at h2
                simp [lookupField, List.lookup, limitsErrorEnv] at h2
                exact absurd (intMsg_inj _ _ _ h2) (hDef t varName a b m hd)
              | ok i =>
                rw [hd] at h
                (try dsimp only at h)
                cases hs : engine.simplify i with
                | error m =>
                  rw [hs] at h
                  (try dsimp only at h)
                  have h2 := congrArg (fun env => lookupField env "message") h
                  dsimp only at h2
                  simp [lookupField, List.lookup, limitsErrorEnv] at h2
                  exact absurd (intMsg_inj _ _ _ h2) (hSimp i m hs)
                | ok si =>
                  rw [hs] at h
                  (try dsimp only at h)
                  have h2 := congrArg (fun env => lookupField env "status") h
                  dsimp only at h2
                  simp [lookupField, List.lookup, limitsErrorEnv] at h2
            · exact ⟨a :: l1, rfl, by simp, hl2⟩
    · -- sufficiency
      rintro ⟨⟨t, hp⟩, l, rfl, hne, hlen⟩
      simp only [calculate_integral, hp]
      have hie : l.isEmpty = false := by
        cases l with
        | nil => exact absurd rfl hne
        | cons a l1 => rfl
      have hbne : (l.length != 2) = true := by
        simp [bne_iff_ne, hlen]
      rw [hie]
      simp only [Bool.not_false, if_true, hbne, reduceIte]
      rfl
  · intro expression varName
    unfold calculate_integral
    cases hp : parseExpressionSafely engine expression with
    | error e => rfl
    | ok t =>
      dsimp only
      simp only [List.isEmpty_nil, Bool.not_true, Bool.false_eq_true, reduceIte]
      cases hi : engine.integrate t varName with
      | error m => rfl
      | ok i =>
        dsimp only
        cases hs : engine.simplify i with
        | error m => rfl
        | ok si => rfl

/-- A concrete engine for the C9 witness whose integration failures carry a
fixed message distinct from the limits error text. -/
def c9Engine : SymEngine SymExpr :=
  { symEngine with
    integrate := fun _ _ => .error "integration unsupported"
    integrateDef := fun _ _ _ _ => .error "integration unsupported" }

/-- Witness for C9's amended characterisation: a truthy one-element limits
list with a parseable expression produces exactly the limits-error
envelope. -/
theorem c9_limits_error_characterisation_witness :
    calculate_integral c9Engine "x**2" "x" (some [.str "0"]) =
      limitsErrorEnv "x**2" "x" (some [.str "0"]) := by
  have h := (c9_limits_error_characterisation c9Engine
    (by intro t v m hm; injection hm with h1; subst h1; decide)
    (by intro t v lo hi m hm; injection hm with h1; subst h1; decide)
    (by intro t m hm; cases hm)).1 "x**2" "x" (some [.str "0"])
  exact h.mpr ⟨⟨.pow (.sym "x") (.num 2), rfl⟩, [.str "0"], rfl, by simp, by decide⟩

/-- C7: `factor_expression` publishes `str(factor(parse(e)))`, so under
SymPy's factoring contract (expanding the factored form recovers the
expansion of the original, stated as the hypothesis on `factor`) and
print/parse faithfulness, expanding the returned `factored_expression` is
algebraically equal to the expansion of the original; and when the parsed
input is irreducible (`factor` returns it unchanged) the returned text is
the input's own printed form with `is_factored == False`. -/
theorem c7_factor_round_trip :
    (∀ {α : Type} (engine : SymEngine α) (e : String) (x f : α),
      parseExpressionSafely engine e = .ok x →
      engine.factor x = .ok f →
      (∀ y g, engine.factor y = .ok g → engine.expand g = engine.expand y) →
      factor_expression engine e =
        [("status", .str "success"),
         ("original_expression", .str e),
         ("factored_expression", .str (engine.printExpr f)),
         ("is_factored", .bool (engine.printExpr x != engine.printExpr f))] ∧
      (∀ xf, parseExpressionSafely engine (engine.printExpr f) = .ok xf →
        xf = f → engine.expand xf = engine.expand x)) ∧
    (∀ {α : Type} (engine : SymEngine α) (e : String) (x : α),
      parseExpressionSafely engine e = .ok x →
      engine.factor x = .ok x →
      lookupField (factor_expression engine e) "factored_expression" =
        some (.str (engine.printExpr x)) ∧
      lookupField (factor_expression engine e) "is_factored" = some (.bool false)) := by
  constructor
  · intro α engine e x f hp hf hcontract
    constructor
    · simp only [factor_expression, hp, hf]
    · intro xf hback hfaithful
      subst hfaithful
      exact hcontract x _ hf
  · intro α engine e x hp hf
    have henv : factor_expression engine e =
        [("status", .str "success"),
         ("original_expression", .str e),
         ("factored_expression", .str (engine.printExpr x)),
         ("is_factored", .bool (engine.printExpr x != engine.printExpr x))] := by
      simp only [factor_expression, hp, hf]
    rw [henv]
    refine ⟨rfl, ?_⟩
    rw [bne_self_eq_false]
    rfl

/-- Witness for C7 at the irreducible `x**2 + 1` against the concrete
engine. -/
theorem c7_factor_round_trip_witness :
    factor_expression symEngine "x**2 + 1" =
      [("status", .str "success"),
       ("original_expression", .str "x**2 + 1"),
       ("factored_expression", .str "x**2 + 1"),
       ("is_factored", .bool false)] :=
  (c7_factor_round_trip.1 symEngine "x**2 + 1"
    (.add (.pow (.sym "x") (.num 2)) (.num 1)) (.add (.pow (.sym "x") (.num 2)) (.num 1))
    rfl rfl (fun y g h => by injection h with h1; rw [h1])).1

/-- C8: `simplify_expression` publishes `str(simplify(parse(e)))`; under
print/parse faithfulness of the printed simplified form and SymPy's
idempotence of `simplify` (the two hypotheses on the engine), feeding the
published `simplified_expression` back into `simplify_expression` returns
the same `simplified_expression` and reports `is_simplified == False`. -/
theorem c8_simplify_idempotent :
    ∀ {α : Type} (engine : SymEngine α) (e : String) (x s1 : α),
      parseExpressionSafely engine e = .ok x →
      engine.simplify x = .ok s1 →
      parseExpressionSafely engine (engine.printExpr s1) = .ok s1 →
      engine.simplify s1 = .ok s1 →
      lookupField (simplify_expression engine e) "simplified_expression" =
        some (.str (engine.printExpr s1)) ∧
      lookupField (simplify_expression engine (engine.printExpr s1)) "simplified_expression" =
        some (.str (engine.printExpr s1)) ∧
      lookupField (simplify_expression engine (engine.printExpr s1)) "is_simplified" =
        some (.bool false) := by
  intro α engine e x s1 hp hs hpp hidem
  have h1 : simplify_expression engine e =
      [("status", .str "success"),
       ("original_expression", .str e),
       ("simplified_expression", .str (engine.printExpr s1)),
       ("is_simplified", .bool (engine.printExpr x != engine.printExpr s1))] := by
    simp only [simplify_expression, hp, hs]
  have h2 : simplify_expression engine (engine.printExpr s1) =
      [("status", .str "success"),
       ("original_expression", .str (engine.printExpr s1)),
       ("simplified_expression", .str (engine.printExpr s1)),
       ("is_simplified", .bool (engine.printExpr s1 != engine.printExpr s1))] := by
    simp only [simplify_expression, hpp, hidem]
  rw [h1, h2, bne_self_eq_false]
  exact ⟨rfl, rfl, rfl⟩

/-- Witness for C8 at `x + x` (simplified to `2*x`) against the concrete
engine. -/
theorem c8_simplify_idempotent_witness :
    lookupField (simplify_expression symEngine "x + x") "simplified_expression" =
      some (.str "2*x") ∧
    lookupField (simplify_expression symEngine "2*x") "simplified_expression" =
      some (.str "2*x") :=
  have h := c8_simplify_idempotent symEngine "x + x"
    (.add (.sym "x") (.sym "x")) (.mul (.num 2) (.sym "x")) rfl rfl rfl rfl
  ⟨h.1, h.2.1⟩

/-- Trivial concrete extractors for witnesses (the router theorems hold for
every extractor behaviour). -/
def trivExt : Extractors where
  equationFromQuery q := q
  expressionFromQuery q := q
  arithmeticFromQuery q := q
  derivativeParams _ := ("x", 1)
  integralParams _ := ("x", Option.none)

/-- C4 counterexample: a classifier response that parses as valid JSON but
is not an object (here a JSON list) is also terminal — `.get` on a list
raises `AttributeError`, caught by the outer handler — with a message
carrying none of the three prefixes the claim declares exhaustive. -/
theorem c4_counterexample :
    solve_math symEngine (fun _ => .ok (.list .nil)) trivExt ⟨some "p", "[]"⟩ Option.none "q" =
      [("status", .str "error"),
       ("message", .str "Error in math routing: \x27list\x27 object has no attribute \x27get\x27"),
       ("query", .str "q")] ∧
    strContains "Error in math routing: \x27list\x27 object has no attribute \x27get\x27"
      "Invalid JSON from routing LLM" = false ∧
    strContains "Error in math routing: \x27list\x27 object has no attribute \x27get\x27"
      "No operation specified" = false ∧
    strContains "Error in math routing: \x27list\x27 object has no attribute \x27get\x27"
      "Unknown operation:" = false ∧
    lookupField (solve_math symEngine (fun _ => .ok (.list .nil)) trivExt ⟨some "p", "[]"⟩
      Option.none "q") "routing_decision" = Option.none :=
  ⟨rfl, by decide, by decide, by decide, rfl⟩

/-- C4 (amended): with the routing prompt available, the classifier-response
terminal cases of `solve_math` are: invalid JSON (message prefixed
`"Invalid JSON from routing LLM"`), a JSON object with a missing (or falsy)
`operation` (message prefixed `"No operation specified"`), an unknown
operation value (message `"Unknown operation: <value>"`), and additionally a
valid-JSON non-object response (message prefixed `"Error in math routing"`);
each returns its error envelope directly, without dispatching. -/
theorem c4_router_terminal_cases :
    ∀ {α : Type} (engine : SymEngine α) (jsonParse : String → Except String PyVal)
      (ext : Extractors) (p resp : String) (fetcher : Option (String → Envelope))
      (query : String),
      match jsonParse (stripFences (pyStrip resp)) with
      | .error e =>
          solve_math engine jsonParse ext ⟨some p, resp⟩ fetcher query =
            [("status", .str "error"),
             ("message", .str ("Invalid JSON from routing LLM: " ++
               (stripFences (pyStrip resp) ++ (". Error: " ++ e)))),
             ("query", .str query)] ∧
          strContains ("Invalid JSON from routing LLM: " ++
            (stripFences (pyStrip resp) ++ (". Error: " ++ e)))
            "Invalid JSON from routing LLM" = true
      | .ok (.dict kvs) =>
          if pyTruthy (kvs.getD "operation" .none) then
            (match dispatch engine ext (kvs.getD "operation" .none) query with
             | some _ => True
             | Option.none =>
                 solve_math engine jsonParse ext ⟨some p, resp⟩ fetcher query =
                   [("status", .str "error"),
                    ("message", .str ("Unknown operation: " ++ pyStr (kvs.getD "operation" .none))),
                    ("query", .str query)] ∧
                 strContains ("Unknown operation: " ++ pyStr (kvs.getD "operation" .none))
                   "Unknown operation:" = true)
          else
            solve_math engine jsonParse ext ⟨some p, resp⟩ fetcher query =
              [("status", .str "error"),
               ("message", .str ("No operation specified in routing decision: " ++
                 pyStr (.dict kvs))),
               ("query", .str query)] ∧
            strContains ("No operation specified in routing decision: " ++ pyStr (.dict kvs))
              "No operation specified" = true
      | .ok v =>
          solve_math engine jsonParse ext ⟨some p, resp⟩ fetcher query =
            [("status", .str "error"),
             ("message", .str ("Error in math routing: " ++
               ("\x27" ++ (pyTypeName v ++ "\x27 object has no attribute \x27get\x27")))),
             ("query", .str query)] ∧
          strContains ("Error in math routing: " ++
            ("\x27" ++ (pyTypeName v ++ "\x27 object has no attribute \x27get\x27")))
            "Error in math routing" = true := by
  intro α engine jsonParse ext p resp fetcher query
  cases hj : jsonParse (stripFences (pyStrip resp)) with
  | error e =>
    refine ⟨?_, strContains_of_append "Invalid JSON from routing LLM"
      (": " ++ (stripFences (pyStrip resp) ++ (". Error: " ++ e)))⟩
    simp only [solve_math, solveMathInner, hj]
  | ok v =>
    cases v with
    | dict kvs =>
      cases hop : pyTruthy (kvs.getD "operation" PyVal.none) with
      | true =>
        simp only [hop, if_true]
        cases hd : dispatch engine ext (kvs.getD "operation" PyVal.none) query with
        | some result => trivial
        | none =>
          refine ⟨?_, strContains_of_append "Unknown operation:"
            (" " ++ pyStr (kvs.getD "operation" PyVal.none))⟩
          simp only [solve_math, solveMathInner, hj, hop, hd]
          rfl
      | false =>
        simp only [hop, Bool.false_eq_true, reduceIte]
        refine ⟨?_, strContains_of_append "No operation specified"
          (" in routing decision: " ++ pyStr (.dict kvs))⟩
        simp only [solve_math, solveMathInner, hj, hop]
        rfl
    | none =>
      refine ⟨?_, strContains_of_append "Error in math routing"
        (": " ++ ("\x27" ++ (pyTypeName PyVal.none ++ "\x27 object has no attribute \x27get\x27")))⟩
      simp only [solve_math, solveMathInner, hj]
      rfl
    | bool b =>
      refine ⟨?_, strContains_of_append "Error in math routing"
        (": " ++ ("\x27" ++ (pyTypeName (PyVal.bool b) ++ "\x27 object has no attribute \x27get\x27")))⟩
      simp only [solve_math, solveMathInner, hj]
      rfl
    | int n =>
      refine ⟨?_, strContains_of_append "Error in math routing"
        (": " ++ ("\x27" ++ (pyTypeName (PyVal.int n) ++ "\x27 object has no attribute \x27get\x27")))⟩
      simp only [solve_math, solveMathInner, hj]
      rfl
    | float q =>
      refine ⟨?_, strContains_of_append "Error in math routing"
        (": " ++ ("\x27" ++ (pyTypeName (PyVal.float q) ++ "\x27 object has no attribute \x27get\x27")))⟩
      simp only [solve_math, solveMathInner, hj]
      rfl
    | str s =>
      refine ⟨?_, strContains_of_append "Error in math routing"
        (": " ++ ("\x27" ++ (pyTypeName (PyVal.str s) ++ "\x27 object has no attribute \x27get\x27")))⟩
      simp only [solve_math, solveMathInner, hj]
      rfl
    | list l =>
      refine ⟨?_, strContains_of_append "Error in math routing"
        (": " ++ ("\x27" ++ (pyTypeName (PyVal.list l) ++ "\x27 object has no attribute \x27get\x27")))⟩
      simp only [solve_math, solveMathInner, hj]
      rfl

/-- Witness for C4's amended statement: an unparseable classifier response
at concrete inputs yields the invalid-JSON terminal envelope. -/
theorem c4_router_terminal_cases_witness :
    solve_math symEngine (fun _ => .error "boom") trivExt ⟨some "p", "xx"⟩ Option.none "q" =
      [("status", .str "error"),
       ("message", .str "Invalid JSON from routing LLM: xx. Error: boom"),
       ("query", .str "q")] := by
  have h := c4_router_terminal_cases symEngine (fun _ => .error "boom") trivExt "p" "xx"
    Option.none "q"
  simpa using h.1

/-- The step-6 context preview as a pure function of the context value
(`context[:100] + "..." if context and len(context) > 100 else context`). -/
def truncate100 : PyVal → PyVal
  | .str s => .str (if 100 < s.length then String.mk (s.data.take 100) ++ "..." else s)
  | v => v

/-- The context-fetcher collaborator contract of §6 of the specification:
`relevant_context`, when present, is a string. -/
def fetcherConforms : Option (String → Envelope) → Prop
  | Option.none => True
  | some f => ∀ q v, lookupField (f q) "relevant_context" = some v → ∃ s, v = .str s

theorem contextContent_str (s : String) :
    contextContent (.str s) = .ok (truncate100 (.str s)) := by
  unfold contextContent truncate100 pyLen
  by_cases hs : s = ""
  · subst hs
    rfl
  · have ht : pyTruthy (.str s) = true := by
      simp [pyTruthy, hs]
    rw [ht]
    simp only [if_true]
    split <;> rfl

theorem fetchContext_str (nc : PyVal) (fetcher : Option (String → Envelope)) (query : String)
    (h : fetcherConforms fetcher) : ∃ s, fetchContext nc fetcher query = .str s := by
  unfold fetchContext
  cases fetcher with
  | none => exact ⟨"", rfl⟩
  | some f =>
    cases ht : pyTruthy nc with
    | false => exact ⟨"", by simp⟩
    | true =>
      simp only [if_true]
      split
      · cases hrc : lookupField (f query) "relevant_context" with
        | none => exact ⟨"", rfl⟩
        | some v =>
          obtain ⟨s, rfl⟩ := h query v hrc
          exact ⟨s, rfl⟩
      · exact ⟨"", rfl⟩

theorem dictAssign_append (env : Envelope) (k : String) (v : PyVal)
    (h : List.lookup k env = Option.none) : dictAssign env k v = env ++ [(k, v)] := by
  unfold dictAssign
  rw [h]
  rfl

/-- C10: whenever `solve_math` reaches the dispatch stage (prompt present,
JSON object decoded, truthy known operation; fetcher conforming to its
declared interface), the returned envelope is the dispatched operation's
envelope with exactly one key appended — `routing_decision`, holding the
operation, `context_used`, the context preview truncated to 100 characters
with `"..."` only when longer, and the raw routing JSON — and the
operation's envelope never contains that key; every pre-dispatch failure
envelope carries no `routing_decision` key. -/
theorem c10_routing_decision_frame :
    (∀ {α : Type} (engine : SymEngine α) (jsonParse : String → Except String PyVal)
      (ext : Extractors) (p resp : String) (fetcher : Option (String → Envelope))
      (query : String), fetcherConforms fetcher →
      match jsonParse (stripFences (pyStrip resp)) with
      | .ok (.dict kvs) =>
          if pyTruthy (kvs.getD "operation" .none) then
            match dispatch engine ext (kvs.getD "operation" .none) query with
            | some result =>
                solve_math engine jsonParse ext ⟨some p, resp⟩ fetcher query =
                  result ++ [("routing_decision",
                    routingDecisionVal (kvs.getD "operation" .none)
                      (kvs.getD "needs_context" (.bool false))
                      (truncate100 (fetchContext (kvs.getD "needs_context" (.bool false))
                        fetcher query))
                      (stripFences (pyStrip resp)))] ∧
                lookupField result "routing_decision" = Option.none
            | Option.none =>
                lookupField (solve_math engine jsonParse ext ⟨some p, resp⟩ fetcher query)
                  "routing_decision" = Option.none
          else
            lookupField (solve_math engine jsonParse ext ⟨some p, resp⟩ fetcher query)
              "routing_decision" = Option.none
      | .error _ =>
          lookupField (solve_math engine jsonParse ext ⟨some p, resp⟩ fetcher query)
            "routing_decision" = Option.none
      | .ok _ =>
          lookupField (solve_math engine jsonParse ext ⟨some p, resp⟩ fetcher query)
            "routing_decision" = Option.none) ∧
    (∀ {α : Type} (engine : SymEngine α) (jsonParse : String → Except String PyVal)
      (ext : Extractors) (resp : String) (fetcher : Option (String → Envelope))
      (query : String),
      lookupField (solve_math engine jsonParse ext ⟨Option.none, resp⟩ fetcher query)
        "routing_decision" = Option.none) := by
  constructor
  · intro α engine jsonParse ext p resp fetcher query hfetch
    cases hj : jsonParse (stripFences (pyStrip resp)) with
    | error e =>
      simp only [solve_math, solveMathInner, hj]
      rfl
    | ok v =>
      cases v with
      | dict kvs =>
        cases hop : pyTruthy (kvs.getD "operation" PyVal.none) with
        | false =>
          simp only [hop, Bool.false_eq_true, reduceIte]
          simp only [solve_math, solveMathInner, hj, hop]
          rfl
        | true =>
          simp only [hop, if_true]
          cases hd : dispatch engine ext (kvs.getD "operation" PyVal.none) query with
          | none =>
            simp only [solve_math, solveMathInner, hj, hop, hd]
            rfl
          | some result =>
            obtain ⟨s, hctx⟩ := fetchContext_str
              (kvs.getD "needs_context" (PyVal.bool false)) fetcher query hfetch
            have hcc : contextContent (fetchContext
                (kvs.getD "needs_context" (PyVal.bool false)) fetcher query) =
                .ok (truncate100 (fetchContext
                  (kvs.getD "needs_context" (PyVal.bool false)) fetcher query)) := by
              rw [hctx]
              exact contextContent_str s
            have hnord := dispatch_no_routing_decision engine ext
              (kvs.getD "operation" PyVal.none) query result hd
            refine ⟨?_, hnord⟩
            simp only [solve_math, solveMathInner, hj, hop, hd, hcc]
            rw [dictAssign_append result _ _ hnord]
            simp
      | none =>
        simp only [solve_math, solveMathInner, hj]
        rfl
      | bool b =>
        simp only [solve_math, solveMathInner, hj]
        rfl
      | int n =>
        simp only [solve_math, solveMathInner, hj]
        rfl
      | float q =>
        simp only [solve_math, solveMathInner, hj]
        rfl
      | str s =>
        simp only [solve_math, solveMathInner, hj]
        rfl
      | list l =>
        simp only [solve_math, solveMathInner, hj]
        rfl
  · intro α engine jsonParse ext resp fetcher query
    rfl

/-- Witness for C10 at a concrete routed arithmetic query with no context. -/
theorem c10_routing_decision_frame_witness :
    solve_math symEngine
      (fun _ => .ok (.dict (.cons "operation" (.str "calculate_complex_arithmetic") .nil)))
      trivExt ⟨some "p", "resp"⟩ Option.none "1+2" =
      calculate_complex_arithmetic "1+2" ++
        [("routing_decision",
          routingDecisionVal (.str "calculate_complex_arithmetic") (.bool false)
            (.str "") "resp")] := by
  have h := (c10_routing_decision_frame.1 symEngine
    (fun _ => .ok (.dict (.cons "operation" (.str "calculate_complex_arithmetic") .nil)))
    trivExt "p" "resp" Option.none "1+2" trivial)
  exact h.1.trans rfl
